import Mathlib

/-! # Pearllink listing engine

A shallow embedding of the listing logic of `src/pearllink.js` (class `PearllinkApp`):
the search/filter predicate of `filterBusinesses`, the comparator sort of `sortBusinesses`,
the page slice of `renderBusinesses`, the field checks of `validateField` and the region
test of `matchesLocation`.

Modelling conventions.

* JavaScript strings are Lean strings; `toLowerCase` lowers the ASCII letters, `includes`
  is the contiguous-substring test, `===` on strings is equality and the empty string is
  the only falsy string.
* Numbers that the code uses as whole amounts or counters (`price`, `currentPage`,
  `businessesPerPage`, array indices) are integers (`Int`).
* A comparator result is `Option Int`, with `none` standing for `NaN`; `sort` is the stable
  sort for a consistent comparator and V8's short-array routine for an inconsistent one.
* The DOM is reduced to the values the listing code reads and writes (`Dom`).
* A method is a function from the application object and the document to an `Outcome`:
  both after the call, and the exception raised, if any.
-/

namespace Pearllink

/-! ## JavaScript built-ins used by the listing code -/

/-- String lowering, `String.prototype.toLowerCase`, on the ASCII range. -/
def toLowerCase (s : String) : String := ⟨s.data.map Char.toLower⟩

/-- Substring scan over character lists: does `t` occur in the list at some offset. -/
def includesList (t : List Char) : List Char → Bool
  | [] => t.isEmpty
  | c :: s => t.isPrefixOf (c :: s) || includesList t s

/-- Substring test, `String.prototype.includes`: `includes s t` is `s.includes(t)`. -/
def includes (s t : String) : Bool := includesList t.data s.data

/-- Falsiness of a string, the test behind `!s`: only the empty string is falsy. -/
def falsy (s : String) : Bool := s == ""

/-- Array slicing, `Array.prototype.slice(start, end)` with integer arguments: negative
arguments count from the end, both bounds are clamped to the length. -/
def slice {α : Type} (l : List α) (start stop : Int) : List α :=
  let len : Int := l.length
  let k : Int := if start < 0 then max (len + start) 0 else min start len
  let final : Int := if stop < 0 then max (len + stop) 0 else min stop len
  (l.drop k.toNat).take (final - k).toNat

/-- Consistency of a comparator on the elements of a list: the conditions of an ECMAScript
consistent comparator, checked on the results as the sort reads them, `NaN` (`none`)
counting as `0`. For all `a`, `b`, `c` of the list: `a` compares equal to itself, equality
is symmetric and transitive, `<` is transitive and `>` is transitive. The comparator is
then a total preorder on the elements, and a stable sort has one possible result. -/
def consistentOn {α : Type} (compareFn : α → α → Option Int) (l : List α) : Bool :=
  l.all (fun a => l.all (fun b => l.all (fun c =>
    decide ((compareFn a a).getD 0 = 0) &&
    decide ((compareFn a b).getD 0 = 0 → (compareFn b a).getD 0 = 0) &&
    decide ((compareFn a b).getD 0 = 0 → (compareFn b c).getD 0 = 0 →
      (compareFn a c).getD 0 = 0) &&
    decide ((compareFn a b).getD 0 < 0 → (compareFn b c).getD 0 < 0 →
      (compareFn a c).getD 0 < 0) &&
    decide ((compareFn a b).getD 0 > 0 → (compareFn b c).getD 0 > 0 →
      (compareFn a c).getD 0 > 0))))

/-- The binary search of V8's `BinaryInsertionSort`: the index at which `pivot` is inserted
into the first `right` elements of `work`. The pivot goes left of the middle element when
the comparator gives a negative number and right of it otherwise; `fuel` bounds the number
of halvings and the length of `work` is enough. -/
def binaryInsertionSort.insertionPoint {α : Type} (compareFn : α → α → Option Int)
    (pivot : α) (work : List α) : Nat → Nat → Nat → Nat
  | 0, left, _ => left
  | fuel + 1, left, right =>
    if left < right then
      let mid := left + (right - left) / 2
      match work[mid]? with
      | none => left
      | some element =>
        if (compareFn pivot element).getD 0 < 0 then
          binaryInsertionSort.insertionPoint compareFn pivot work fuel left mid
        else binaryInsertionSort.insertionPoint compareFn pivot work fuel (mid + 1) right
    else left

/-- The loop of V8's `BinaryInsertionSort`: each remaining element in turn is inserted into
the elements already placed, at the index found by the binary search. -/
def binaryInsertionSort {α : Type} (compareFn : α → α → Option Int) :
    List α → List α → List α
  | work, [] => work
  | work, pivot :: rest =>
    let left :=
      binaryInsertionSort.insertionPoint compareFn pivot work work.length 0 work.length
    binaryInsertionSort compareFn (work.take left ++ pivot :: work.drop left) rest

/-- The scan of V8's `CountAndMakeRun` after the first two elements: how many further
elements continue the run, a descending run going on while each element compares below its
predecessor and an ascending run while it does not. -/
def countAndMakeRun.extend {α : Type} (compareFn : α → α → Option Int) (isDescending : Bool) :
    α → List α → Nat
  | _, [] => 0
  | previousElement, currentElement :: rest =>
    if isDescending then
      if (compareFn currentElement previousElement).getD 0 ≥ 0 then 0
      else 1 + countAndMakeRun.extend compareFn isDescending currentElement rest
    else
      if (compareFn currentElement previousElement).getD 0 < 0 then 0
      else 1 + countAndMakeRun.extend compareFn isDescending currentElement rest

/-- The sort of V8 (Chrome, Node.js) on an array of fewer than 64 elements, which is one
run for it: `CountAndMakeRun` finds the initial run and reverses it when it is descending,
then `BinaryInsertionSort` inserts the other elements. -/
def arrayTimSort {α : Type} (compareFn : α → α → Option Int) : List α → List α
  | [] => []
  | [a] => [a]
  | elementHigh :: elementLow :: rest =>
    let isDescending := decide ((compareFn elementLow elementHigh).getD 0 < 0)
    let runLength := 2 + countAndMakeRun.extend compareFn isDescending elementLow rest
    let work := elementHigh :: elementLow :: rest
    let run := if isDescending then (work.take runLength).reverse else work.take runLength
    binaryInsertionSort compareFn run (work.drop runLength)

/-- Comparator sort, `Array.prototype.sort(compareFn)`, a `NaN` result (`none`) being read
as `0`. For a comparator that is consistent on the elements the result is the stable sorted
order: `a` comes before `b` when `compareFn(a, b) <= 0`, equal elements keep their order.
For an inconsistent comparator the order depends on the algorithm of the engine, and the
model takes what V8 computes (`arrayTimSort`, exact below 64 elements). -/
def sort {α : Type} (compareFn : α → α → Option Int) (l : List α) : List α :=
  if consistentOn compareFn l then l.insertionSort (fun a b => (compareFn a b).getD 0 ≤ 0)
  else arrayTimSort compareFn l

/-! ## Data model -/

/-- One listing, the object literals of `loadSampleBusinesses`; `dateAdded` is the
timestamp read by the `newest`/`oldest` comparators, absent (`none`) in the sample data. -/
structure Business where
  id : Int
  title : String
  industry : String
  price : Int
  location : String
  description : String
  revenue : Int
  employees : Int
  yearsInBusiness : Int
  roi : Int
  image : String
  featured : Bool
  dateAdded : Option Int
deriving DecidableEq

/-- The listing fields of the application object set up by the constructor. -/
structure PearllinkApp where
  businesses : List Business
  filteredBusinesses : List Business
  currentPage : Int
  businessesPerPage : Int
deriving DecidableEq

/-- The part of the document the listing code touches: the `value` of each input (`none`
when the element is missing), the cards shown in `#businessesGrid` and the `style.display`
of `#loadMoreBtn` (`none` when the element is missing). -/
structure Dom where
  searchInput : Option String
  industryFilter : Option String
  priceFilter : Option String
  locationFilter : Option String
  sortSelect : Option String
  businessesGrid : Option (List Business)
  loadMoreBtn : Option String
deriving DecidableEq

/-- An exception thrown by a method. -/
inductive JsError where
  | typeError (message : String)
deriving DecidableEq

namespace PearllinkApp

/-- The dataset installed by `loadSampleBusinesses` (lines 993-1120). -/
def sampleBusinesses : List Business :=
  [ { id := 1, title := "Tech Startup SaaS Platform", industry := "technology",
      price := 2500000, location := "San Francisco, CA",
      description := "Profitable SaaS platform with 10,000+ active users and recurring revenue of $500K annually.",
      revenue := 500000, employees := 15, yearsInBusiness := 3, roi := 25,
      image := "fas fa-laptop-code", featured := true, dateAdded := none },
    { id := 2, title := "Boutique Coffee Chain", industry := "restaurant",
      price := 850000, location := "Seattle, WA",
      description := "Established coffee chain with 5 locations and loyal customer base.",
      revenue := 1200000, employees := 45, yearsInBusiness := 8, roi := 18,
      image := "fas fa-coffee", featured := true, dateAdded := none },
    { id := 3, title := "E-commerce Fashion Store", industry := "retail",
      price := 450000, location := "Los Angeles, CA",
      description := "Online fashion retailer with strong social media presence and growing sales.",
      revenue := 800000, employees := 8, yearsInBusiness := 4, roi := 22,
      image := "fas fa-shopping-bag", featured := false, dateAdded := none },
    { id := 4, title := "Manufacturing Company", industry := "manufacturing",
      price := 3200000, location := "Detroit, MI",
      description := "Established manufacturing company specializing in automotive parts.",
      revenue := 4500000, employees := 120, yearsInBusiness := 15, roi := 12,
      image := "fas fa-industry", featured := true, dateAdded := none },
    { id := 5, title := "Digital Marketing Agency", industry := "services",
      price := 650000, location := "Austin, TX",
      description := "Full-service digital marketing agency with Fortune 500 clients.",
      revenue := 950000, employees := 25, yearsInBusiness := 6, roi := 20,
      image := "fas fa-bullhorn", featured := false, dateAdded := none },
    { id := 6, title := "Restaurant Franchise", industry := "restaurant",
      price := 1200000, location := "Miami, FL",
      description := "Popular restaurant franchise with prime location and established customer base.",
      revenue := 1800000, employees := 35, yearsInBusiness := 10, roi := 15,
      image := "fas fa-utensils", featured := true, dateAdded := none },
    { id := 7, title := "Fitness Studio Chain", industry := "services",
      price := 750000, location := "Denver, CO",
      description := "Modern fitness studio chain with 3 locations and growing membership base.",
      revenue := 1100000, employees := 30, yearsInBusiness := 5, roi := 19,
      image := "fas fa-dumbbell", featured := false, dateAdded := none },
    { id := 8, title := "Construction Company", industry := "manufacturing",
      price := 2800000, location := "Phoenix, AZ",
      description := "Established construction company with government contracts and steady revenue.",
      revenue := 3800000, employees := 85, yearsInBusiness := 12, roi := 14,
      image := "fas fa-hard-hat", featured := false, dateAdded := none },
    { id := 9, title := "Mobile App Development", industry := "technology",
      price := 950000, location := "Boston, MA",
      description := "Mobile app development company with successful apps in app stores.",
      revenue := 750000, employees := 12, yearsInBusiness := 4, roi := 28,
      image := "fas fa-mobile-alt", featured := true, dateAdded := none } ]

/-! ## `filterBusinesses`, the definition in effect (lines 1272-1302)

The class body declares `filterBusinesses` twice; the later declaration replaces the
earlier one, so this is the method that runs. -/

/-- The constant `searchTerm`: `searchInput?.value.toLowerCase() || ''`. -/
def filterBusinesses.searchTerm (dom : Dom) : String :=
  (dom.searchInput.map toLowerCase).getD ""

/-- The constant `industry`: `industryFilter?.value || ''`. -/
def filterBusinesses.industry (dom : Dom) : String := dom.industryFilter.getD ""

/-- The constant `priceRange`: `priceFilter?.value || ''`. -/
def filterBusinesses.priceRange (dom : Dom) : String := dom.priceFilter.getD ""

/-- The constant `location`: `locationFilter?.value || ''`. -/
def filterBusinesses.location (dom : Dom) : String := dom.locationFilter.getD ""

/-- The constant `matchesSearch` of the filter callback (lines 1279-1283). -/
def filterBusinesses.matchesSearch (searchTerm : String) (business : Business) : Bool :=
  falsy searchTerm ||
    includes (toLowerCase business.title) searchTerm ||
    includes (toLowerCase business.description) searchTerm ||
    includes (toLowerCase business.location) searchTerm ||
    includes (toLowerCase business.industry) searchTerm

/-- The constant `matchesIndustry` of the filter callback (line 1285). -/
def filterBusinesses.matchesIndustry (industry : String) (business : Business) : Bool :=
  falsy industry || business.industry == industry

/-- The constant `matchesLocation` of the filter callback (line 1286). -/
def filterBusinesses.matchesLocation (location : String) (business : Business) : Bool :=
  falsy location || business.location == location

/-- The variable `matchesPrice` of the filter callback (lines 1288-1295). -/
def filterBusinesses.matchesPrice (priceRange : String) (business : Business) : Bool :=
  if falsy priceRange then true
  else
    let price := business.price
    if priceRange = "0-100000" then decide (price < 100000)
    else if priceRange = "100000-500000" then decide (price ≥ 100000) && decide (price ≤ 500000)
    else if priceRange = "500000-1000000" then decide (price > 500000) && decide (price ≤ 1000000)
    else if priceRange = "1000000+" then decide (price > 1000000)
    else true

/-- The filter callback (lines 1278-1298): the value it returns for one listing. -/
def filterBusinesses.keeps (searchTerm industry priceRange location : String)
    (business : Business) : Bool :=
  filterBusinesses.matchesSearch searchTerm business &&
    filterBusinesses.matchesIndustry industry business &&
    filterBusinesses.matchesLocation location business &&
    filterBusinesses.matchesPrice priceRange business

/-- The constant `filteredBusinesses` (line 1278): `this.businesses.filter(...)`. -/
def filterBusinesses.filteredBusinesses (app : PearllinkApp) (dom : Dom) : List Business :=
  app.businesses.filter
    (filterBusinesses.keeps (filterBusinesses.searchTerm dom) (filterBusinesses.industry dom)
      (filterBusinesses.priceRange dom) (filterBusinesses.location dom))

/-- The method `matchesPriceRange(price, range)` (lines 960-973). -/
def matchesPriceRange (price : Int) (range : String) : Bool :=
  if range = "0-100000" then decide (price < 100000)
  else if range = "100000-500000" then decide (price ≥ 100000) && decide (price ≤ 500000)
  else if range = "500000-1000000" then decide (price > 500000) && decide (price ≤ 1000000)
  else if range = "1000000+" then decide (price > 1000000)
  else true

/-! ## `sortBusinesses` (lines 1304-1335) -/

/-- The constant `sortValue`: `sortSelect?.value || 'featured'`. -/
def sortBusinesses.sortValue (dom : Dom) : String :=
  let value := dom.sortSelect.getD ""
  if falsy value then "featured" else value

/-- The method `getCurrentDisplayedBusinesses()` (lines 1332-1335): it returns
`this.businesses`. -/
def getCurrentDisplayedBusinesses (app : PearllinkApp) : List Business := app.businesses

/-- The difference `new Date(a.dateAdded) - new Date(b.dateAdded)`: `NaN` as soon as one of
the two timestamps is missing. -/
def sortBusinesses.dateDifference (a b : Business) : Option Int :=
  match a.dateAdded, b.dateAdded with
  | some x, some y => some (x - y)
  | _, _ => none

/-- The comparator of the `featured` and `default` cases (line 1325). -/
def sortBusinesses.compareFeatured (a b : Business) : Option Int :=
  some ((if b.featured then 1 else 0) - (if a.featured then 1 else 0))

/-- The variable `sortedBusinesses` after the `switch` (lines 1308-1327): a copy of the
current listings, sorted with the comparator of the selected case. -/
def sortBusinesses.sortedBusinesses (app : PearllinkApp) (dom : Dom) : List Business :=
  let sortValue := sortBusinesses.sortValue dom
  let currentBusinesses := getCurrentDisplayedBusinesses app
  if sortValue = "price-low" then
    sort (fun a b => some (a.price - b.price)) currentBusinesses
  else if sortValue = "price-high" then
    sort (fun a b => some (b.price - a.price)) currentBusinesses
  else if sortValue = "newest" then
    sort (fun a b => sortBusinesses.dateDifference b a) currentBusinesses
  else if sortValue = "oldest" then
    sort (fun a b => sortBusinesses.dateDifference a b) currentBusinesses
  else
    sort sortBusinesses.compareFeatured currentBusinesses

/-! ## `renderBusinesses` (lines 1126-1164) -/

/-- The constant `startIndex` (line 1130). -/
def renderBusinesses.startIndex (app : PearllinkApp) : Int :=
  (app.currentPage - 1) * app.businessesPerPage

/-- The constant `endIndex` (line 1131). -/
def renderBusinesses.endIndex (app : PearllinkApp) : Int :=
  renderBusinesses.startIndex app + app.businessesPerPage

/-- The constant `businessesToShow` (line 1132): the page. -/
def renderBusinesses.businessesToShow (app : PearllinkApp) : List Business :=
  slice app.filteredBusinesses (renderBusinesses.startIndex app) (renderBusinesses.endIndex app)

/-- The constant `hasMore` (line 1161). -/
def renderBusinesses.hasMore (app : PearllinkApp) : Bool :=
  decide (renderBusinesses.endIndex app < (app.filteredBusinesses.length : Int))

/-- The method `renderBusinesses()`: nothing happens without `#businessesGrid`; otherwise
the grid receives the cards of the page (the skeleton placeholders shown during the first
500 ms are not modelled) and `#loadMoreBtn`, when present, is shown or hidden. No statement
of the method throws. -/
def renderBusinesses (app : PearllinkApp) (dom : Dom) : Except JsError Dom :=
  match dom.businessesGrid with
  | none => .ok dom
  | some _ =>
    .ok { dom with
      businessesGrid := some (renderBusinesses.businessesToShow app)
      loadMoreBtn := dom.loadMoreBtn.map
        (fun _ => if renderBusinesses.hasMore app then "block" else "none") }

/-! ## The methods as state transformers

A method call starts from the application object and the document and ends with both,
possibly updated, and with the exception it raised, if any. Assignments made before a
`throw` stay in place, so the final state is reported in either case. -/

/-- The state in which a method call ends, and the exception that ended it (`none` when the
method returned normally). -/
structure Outcome where
  app : PearllinkApp
  dom : Dom
  thrown : Option JsError
deriving DecidableEq

/-- The call `this.displayBusinesses(businesses)` (lines 1300 and 1329). The class body
declares no member named `displayBusinesses` and nothing assigns one, so the property lookup
gives `undefined` and the call raises a `TypeError`, whatever the argument. -/
def displayBusinesses (_app : PearllinkApp) (_dom : Dom) (_businesses : List Business) :
    Except JsError Dom :=
  .error (.typeError "this.displayBusinesses is not a function")

/-- The method `updateResultsCounter(count)` (lines 1337-1346): it writes the count into
`#resultsCount`, an element outside the modelled part of the document. -/
def updateResultsCounter (dom : Dom) (_count : Nat) : Dom := dom

/-- The method `announceToScreenReader(message)` (lines 261-269): it writes the message
into `#live-region`, an element outside the modelled part of the document. -/
def announceToScreenReader (dom : Dom) (_message : String) : Dom := dom

/-- The method `filterBusinesses()` in effect (lines 1272-1302): it computes the matching
listings into a local constant, hands them to `displayBusinesses` and then updates the
results counter. It assigns no field of the application object. -/
def filterBusinesses (app : PearllinkApp) (dom : Dom) : Outcome :=
  let filteredBusinesses := filterBusinesses.filteredBusinesses app dom
  match displayBusinesses app dom filteredBusinesses with
  | .error e => ⟨app, dom, some e⟩
  | .ok dom1 => ⟨app, updateResultsCounter dom1 filteredBusinesses.length, none⟩

/-- The method `sortBusinesses()` (lines 1304-1330): it sorts a copy of the listings returned
by `getCurrentDisplayedBusinesses` and hands the copy to `displayBusinesses`. It assigns no
field of the application object. -/
def sortBusinesses (app : PearllinkApp) (dom : Dom) : Outcome :=
  let sortedBusinesses := sortBusinesses.sortedBusinesses app dom
  match displayBusinesses app dom sortedBusinesses with
  | .error e => ⟨app, dom, some e⟩
  | .ok dom1 => ⟨app, dom1, none⟩

/-- The method `loadMoreBusinesses()` (lines 1401-1405): `this.currentPage++`, then
`renderBusinesses()`, then the announcement. -/
def loadMoreBusinesses (app : PearllinkApp) (dom : Dom) : Outcome :=
  let app1 : PearllinkApp := { app with currentPage := app.currentPage + 1 }
  match renderBusinesses app1 dom with
  | .error e => ⟨app1, dom, some e⟩
  | .ok dom1 =>
    ⟨app1,
      announceToScreenReader dom1
        ("Loaded page " ++ toString app1.currentPage ++ " of business listings"),
      none⟩

/-- The method `loadSampleBusinesses()` (lines 992-1124): it installs the sample dataset,
copies it into `filteredBusinesses` and renders. -/
def loadSampleBusinesses (app : PearllinkApp) (dom : Dom) : Outcome :=
  let app1 : PearllinkApp :=
    { app with businesses := sampleBusinesses, filteredBusinesses := sampleBusinesses }
  match renderBusinesses app1 dom with
  | .error e => ⟨app1, dom, some e⟩
  | .ok dom1 => ⟨app1, dom1, none⟩

end PearllinkApp

/-! ## Built-ins used by the form validation -/

/-- The characters that `String.prototype.trim` strips and that `\s` matches: the
ECMAScript white space and line terminator code points. -/
def isWhiteSpace (c : Char) : Bool :=
  let n := c.toNat
  n == 9 || n == 10 || n == 11 || n == 12 || n == 13 || n == 32 || n == 160 || n == 5760 ||
    (decide (8192 ≤ n) && decide (n ≤ 8202)) || n == 8232 || n == 8233 || n == 8239 ||
    n == 8287 || n == 12288 || n == 65279

/-- String trimming, `String.prototype.trim`: white space is removed at both ends. -/
def trim (s : String) : String :=
  ⟨((s.data.dropWhile isWhiteSpace).reverse.dropWhile isWhiteSpace).reverse⟩

/-- The `length` of a string: its number of UTF-16 code units, two for each character
outside the basic multilingual plane. -/
def length (s : String) : Nat :=
  (s.data.map (fun c => if c.toNat < 65536 then 1 else 2)).sum

/-- The test `emailRegex.test(value)` for the pattern `^[^\s@]+@[^\s@]+\.[^\s@]+$`
(line 674): a non-empty part without white space before the only `@`, and after it a part
without white space that has a dot with at least one character on either side. -/
def emailRegex.test (value : String) : Bool :=
  let localPart := value.data.takeWhile (fun c => c != '@')
  match value.data.dropWhile (fun c => c != '@') with
  | [] => false
  | _ :: domain =>
    !localPart.isEmpty && localPart.all (fun c => !isWhiteSpace c) &&
      domain.all (fun c => !isWhiteSpace c && c != '@') &&
      ((domain.drop 1).dropLast.contains '.')

/-- An input element as `validateField` reads it: `id`, `type`, `value`, whether it has the
`required` attribute, and whether it belongs to a form that carries the class `submitting`.
The element is attached to the document, so `parentNode` exists. -/
structure Field where
  id : String
  type : String
  value : String
  required : Bool
  submitting : Bool
deriving DecidableEq

/-- What a call of `validateField` produces: the value it returns and the message it hands
to `showFieldError` (`none` when it calls `clearFieldError` instead). -/
structure Validation where
  isValid : Bool
  errorShown : Option String
deriving DecidableEq

/-- One call made on the application object by an event handler. -/
inductive Call where
  | filterBusinesses
  | sortBusinesses
  | loadMoreBusinesses
deriving DecidableEq

namespace PearllinkApp

/-! ## The shadowed price guard and `matchesLocation` (lines 934-986) -/

/-- The constant `matchesPrice` of the earlier `filterBusinesses` (line 946):
`!priceFilter || this.matchesPriceRange(business.price, priceFilter)`. -/
def filterBusinessesShadowed.matchesPrice (priceFilter : String) (business : Business) : Bool :=
  falsy priceFilter || matchesPriceRange business.price priceFilter

/-- The own properties of the object literal `locationMap` (lines 976-981). -/
def matchesLocation.locationMap (key : String) : Option (List String) :=
  if key = "us" then some ["CA", "NY", "TX", "FL", "WA", "MI", "AZ", "CO", "MA"]
  else if key = "canada" then some ["ON", "BC", "AB", "QC"]
  else if key = "uk" then some ["London", "Manchester", "Birmingham"]
  else if key = "australia" then some ["Sydney", "Melbourne", "Brisbane"]
  else none

/-- The property names that an object literal inherits from `Object.prototype`: looked up
on `locationMap` they give a truthy value that has no `some` method. -/
def matchesLocation.inheritedKeys : List String :=
  ["constructor", "hasOwnProperty", "isPrototypeOf", "propertyIsEnumerable", "toLocaleString",
    "toString", "valueOf", "__proto__", "__defineGetter__", "__defineSetter__",
    "__lookupGetter__", "__lookupSetter__"]

/-- The method `matchesLocation(location, filter)` (lines 975-986): an unknown filter
matches everything, a known one matches when the location contains one of its regions. -/
def matchesLocation (location filter : String) : Except JsError Bool :=
  match matchesLocation.locationMap filter with
  | some regions => .ok (regions.any (fun region => includes location region))
  | none =>
    if filter ∈ matchesLocation.inheritedKeys then
      .error (.typeError "locationMap[filter].some is not a function")
    else .ok true

/-! ## `validateField` (lines 657-706) -/

/-- The method `validateField(field)`; `passwordField` is what
`document.getElementById('signupPassword')` returns. Each check that fails overwrites
`isValid` and `errorMessage`, so the last failing check decides the message. -/
def validateField (field : Field) (passwordField : Option Field) : Validation :=
  let value := trim field.value
  let fieldType := field.type
  let start : Bool × String := (true, "")
  let afterRequired : Bool × String :=
    if field.required && falsy value && field.submitting then
      (false, "This field is required")
    else start
  let afterEmail : Bool × String :=
    if fieldType = "email" ∧ falsy value = false then
      if emailRegex.test value = false then (false, "Please enter a valid email address")
      else afterRequired
    else afterRequired
  let afterPassword : Bool × String :=
    if fieldType = "password" ∧ falsy value = false then
      if length value < 8 then (false, "Password must be at least 8 characters long")
      else afterEmail
    else afterEmail
  let afterConfirm : Bool × String :=
    if field.id = "signupConfirmPassword" ∧ falsy value = false then
      match passwordField with
      | some other =>
        if other.value ≠ value then (false, "Passwords do not match") else afterPassword
      | none => afterPassword
    else afterPassword
  ⟨afterConfirm.1, if afterConfirm.1 then none else some afterConfirm.2⟩

/-! ## The constructor and sequences of calls -/

/-- The method `init()` (lines 92-105) as far as the listing state goes: of the set-up
calls only `loadSampleBusinesses` touches it, the others register listeners. -/
def init (app : PearllinkApp) (dom : Dom) : Outcome := loadSampleBusinesses app dom

/-- The constructor (lines 81-90): empty lists, page 1, page size 9, then `init()`. -/
def constructor (dom : Dom) : Outcome := init ⟨[], [], 1, 9⟩ dom

/-- One call, dispatched to the method. -/
def call (c : Call) (app : PearllinkApp) (dom : Dom) : Outcome :=
  match c with
  | .filterBusinesses => filterBusinesses app dom
  | .sortBusinesses => sortBusinesses app dom
  | .loadMoreBusinesses => loadMoreBusinesses app dom

/-- The application object after a sequence of calls, each made with the document as it
is at that moment; an exception ends the handler that raised it, not the sequence. -/
def run : List (Call × Dom) → PearllinkApp → PearllinkApp
  | [], app => app
  | (c, dom) :: rest, app => run rest (call c app dom).app

end PearllinkApp

/-! ## Facts about the built-ins -/

theorem includesList_iff (t : List Char) : ∀ s : List Char, includesList t s = true ↔ t <:+: s
  | [] => by
    simp [includesList, List.isEmpty_iff]
  | c :: s => by
    rw [includesList, Bool.or_eq_true, includesList_iff t s, List.infix_cons_iff,
      List.isPrefixOf_iff_prefix]

theorem includes_iff (s t : String) : includes s t = true ↔ t.data <:+: s.data :=
  includesList_iff t.data s.data

theorem toLowerCase_eq_empty (s : String) : toLowerCase s = "" ↔ s = "" := by
  cases s with
  | mk cs =>
    constructor
    · intro h
      have h2 : (cs.map Char.toLower) = [] := by
        simpa [toLowerCase] using congrArg String.data h
      have : cs = [] := by simpa using h2
      subst this
      rfl
    · intro h
      rw [h]
      rfl

theorem falsy_iff (s : String) : falsy s = true ↔ s = "" := by
  simp [falsy]

/-! ## The query evaluator -/

open PearllinkApp

/-- C1 (as the code has it): a listing satisfies the search condition of the
`filterBusinesses` in effect exactly when the search input is empty (or missing) or its
lowercased value is a substring of the lowercased title, description, location or
industry of the listing. -/
theorem matchesSearch_iff (dom : Dom) (business : Business) :
    filterBusinesses.matchesSearch (filterBusinesses.searchTerm dom) business = true ↔
      (dom.searchInput.getD "" = "" ∨
        (toLowerCase (dom.searchInput.getD "")).data <:+: (toLowerCase business.title).data ∨
        (toLowerCase (dom.searchInput.getD "")).data <:+:
          (toLowerCase business.description).data ∨
        (toLowerCase (dom.searchInput.getD "")).data <:+: (toLowerCase business.location).data ∨
        (toLowerCase (dom.searchInput.getD "")).data <:+:
          (toLowerCase business.industry).data) := by
  have hterm : filterBusinesses.searchTerm dom = toLowerCase (dom.searchInput.getD "") := by
    cases h : dom.searchInput with
    | none =>
      simp only [filterBusinesses.searchTerm, h, Option.map_none', Option.getD_none]
      rfl
    | some term => simp [filterBusinesses.searchTerm, h]
  rw [hterm]
  simp only [filterBusinesses.matchesSearch, Bool.or_eq_true, includes_iff, falsy_iff,
    toLowerCase_eq_empty, or_assoc]

/-- C1, counterexample: the search input `technology` matches the first sample listing,
whose lowercased title, description and location do not contain it; the industry field
makes it match. -/
theorem matchesSearch_industry_only :
    ¬ (filterBusinesses.matchesSearch (toLowerCase "technology")
          (sampleBusinesses.get ⟨0, by decide⟩) = true ↔
        ("technology" = "" ∨
          (toLowerCase "technology").data <:+:
            (toLowerCase (sampleBusinesses.get ⟨0, by decide⟩).title).data ∨
          (toLowerCase "technology").data <:+:
            (toLowerCase (sampleBusinesses.get ⟨0, by decide⟩).description).data ∨
          (toLowerCase "technology").data <:+:
            (toLowerCase (sampleBusinesses.get ⟨0, by decide⟩).location).data)) := by
  simp only [← includes_iff]
  decide

/-- C2: the price condition of `filterBusinesses` (and likewise `matchesPriceRange`) accepts
a price under `0-100000` iff it is below 100000, under `100000-500000` iff it lies in
[100000, 500000], under `500000-1000000` iff it lies in (500000, 1000000], under `1000000+`
iff it is above 1000000, and accepts every price under the empty selector. -/
theorem matchesPrice_bands (business : Business) :
    (filterBusinesses.matchesPrice "0-100000" business = true ↔ business.price < 100000) ∧
    (filterBusinesses.matchesPrice "100000-500000" business = true ↔
      100000 ≤ business.price ∧ business.price ≤ 500000) ∧
    (filterBusinesses.matchesPrice "500000-1000000" business = true ↔
      500000 < business.price ∧ business.price ≤ 1000000) ∧
    (filterBusinesses.matchesPrice "1000000+" business = true ↔ 1000000 < business.price) ∧
    filterBusinesses.matchesPrice "" business = true ∧
    (matchesPriceRange business.price "0-100000" = true ↔ business.price < 100000) ∧
    (matchesPriceRange business.price "100000-500000" = true ↔
      100000 ≤ business.price ∧ business.price ≤ 500000) ∧
    (matchesPriceRange business.price "500000-1000000" = true ↔
      500000 < business.price ∧ business.price ≤ 1000000) ∧
    (matchesPriceRange business.price "1000000+" = true ↔ 1000000 < business.price) := by
  simp [filterBusinesses.matchesPrice, matchesPriceRange, falsy]

/-- C3: a listing kept by `filterBusinesses` has the industry filter empty or equal to its
industry, and the location filter empty or equal to its location string. -/
theorem filteredBusinesses_exact_match (app : PearllinkApp) (dom : Dom) (business : Business)
    (h : business ∈ filterBusinesses.filteredBusinesses app dom) :
    (dom.industryFilter.getD "" = "" ∨ business.industry = dom.industryFilter.getD "") ∧
    (dom.locationFilter.getD "" = "" ∨ business.location = dom.locationFilter.getD "") := by
  simp only [filterBusinesses.filteredBusinesses, List.mem_filter, filterBusinesses.keeps,
    Bool.and_eq_true, filterBusinesses.matchesIndustry, filterBusinesses.matchesLocation,
    Bool.or_eq_true, falsy_iff, beq_iff_eq, filterBusinesses.industry,
    filterBusinesses.location] at h
  exact ⟨h.2.1.1.2, h.2.1.2⟩

/-- C3, witness: with the industry filter `technology` and the location filter
`Boston, MA`, the ninth sample listing is kept. -/
theorem filteredBusinesses_exact_match_witness :
    (sampleBusinesses.get ⟨8, by decide⟩ ∈
        filterBusinesses.filteredBusinesses ⟨sampleBusinesses, sampleBusinesses, 1, 9⟩
          ⟨none, some "technology", none, some "Boston, MA", none, none, none⟩) ∧
    (((some "technology" : Option String).getD "" = "" ∨
        (sampleBusinesses.get ⟨8, by decide⟩).industry =
          (some "technology" : Option String).getD "") ∧
      ((some "Boston, MA" : Option String).getD "" = "" ∨
        (sampleBusinesses.get ⟨8, by decide⟩).location =
          (some "Boston, MA" : Option String).getD "")) :=
  ⟨by decide,
    filteredBusinesses_exact_match ⟨sampleBusinesses, sampleBusinesses, 1, 9⟩
      ⟨none, some "technology", none, some "Boston, MA", none, none, none⟩
      (sampleBusinesses.get ⟨8, by decide⟩) (by decide)⟩

/-- C4: the list computed by `filterBusinesses` is a subsequence of the dataset: it is
obtained from `businesses` by deleting elements, so every element of it is an element of
the dataset and the relative order is that of the dataset. -/
theorem filteredBusinesses_sublist (app : PearllinkApp) (dom : Dom) :
    List.Sublist (filterBusinesses.filteredBusinesses app dom) app.businesses ∧
    ∀ business ∈ filterBusinesses.filteredBusinesses app dom, business ∈ app.businesses :=
  ⟨List.filter_sublist _, fun _ hb => (List.mem_filter.mp hb).1⟩

/-- C5: filtering the result of `filterBusinesses` again with the same query gives the same
list. -/
theorem filteredBusinesses_idempotent (app : PearllinkApp) (dom : Dom) :
    filterBusinesses.filteredBusinesses
        { app with businesses := filterBusinesses.filteredBusinesses app dom } dom =
      filterBusinesses.filteredBusinesses app dom := by
  simp [filterBusinesses.filteredBusinesses, List.filter_filter]

/-! ## The paginator -/

theorem businessesToShow_eq_take_drop (D L : List Business) (p : Int) (hp : 1 ≤ p) :
    renderBusinesses.businessesToShow ⟨D, L, p, 9⟩ = (L.drop ((p - 1) * 9).toNat).take 9 := by
  apply List.ext_getElem?
  intro j
  simp only [renderBusinesses.businessesToShow, renderBusinesses.startIndex,
    renderBusinesses.endIndex, slice, List.getElem?_take, List.getElem?_drop]
  have h1 : ¬ ((p - 1) * 9 < 0) := by omega
  have h2 : ¬ ((p - 1) * 9 + 9 < 0) := by omega
  simp only [h1, h2, if_false]
  by_cases hle : (p - 1) * 9 ≤ (L.length : Int)
  · rw [min_eq_left hle]
    by_cases hj : j < 9
    · by_cases hj2 : ((p - 1) * 9).toNat + j < L.length
      · have : j < (min ((p - 1) * 9 + 9) (L.length : Int) - (p - 1) * 9).toNat := by omega
        simp [this, hj]
      · have hnone : L[((p - 1) * 9).toNat + j]? = none :=
          List.getElem?_eq_none (by omega)
        simp [hnone]
    · have : ¬ j < (min ((p - 1) * 9 + 9) (L.length : Int) - (p - 1) * 9).toNat := by omega
      simp [this, hj]
  · have hlt : (L.length : Int) < (p - 1) * 9 := by omega
    rw [min_eq_right (le_of_lt hlt)]
    have hnone1 : L[((L.length : Int)).toNat + j]? = none :=
      List.getElem?_eq_none (by omega)
    have hnone2 : L[((p - 1) * 9).toNat + j]? = none :=
      List.getElem?_eq_none (by omega)
    simp [hnone1, hnone2]

theorem hasMore_iff (D L : List Business) (p : Int) :
    renderBusinesses.hasMore ⟨D, L, p, 9⟩ = true ↔ p * 9 < (L.length : Int) := by
  simp only [renderBusinesses.hasMore, renderBusinesses.endIndex, renderBusinesses.startIndex,
    decide_eq_true_eq]
  constructor <;> intro h <;> omega

/-- The integer quotient `(n + 8) / 9` is the ceiling of `n / 9`. -/
theorem ceil_div_nine (n : Nat) : ⌈(n : ℚ) / 9⌉ = (((n + 8) / 9 : Nat) : Int) := by
  rw [Int.ceil_eq_iff]
  have h9 : (0 : ℚ) < 9 := by norm_num
  have hq : (((n + 8) / 9 : Nat) : ℚ) * 9 + (((n + 8) % 9 : Nat) : ℚ) = (n : ℚ) + 8 := by
    have := Nat.div_add_mod (n + 8) 9
    have h2 : (((n + 8) / 9 * 9 + (n + 8) % 9 : Nat) : ℚ) = ((n + 8 : Nat) : ℚ) := by
      congr 1
      omega
    push_cast at h2
    exact h2
  have hmod : (((n + 8) % 9 : Nat) : ℚ) ≤ 8 := by
    have : (n + 8) % 9 ≤ 8 := by omega
    exact_mod_cast this
  have hmod0 : (0 : ℚ) ≤ (((n + 8) % 9 : Nat) : ℚ) := Nat.cast_nonneg _
  constructor
  · rw [lt_div_iff₀ h9, Int.cast_natCast]
    linarith
  · rw [div_le_iff₀ h9, Int.cast_natCast]
    linarith

/-- C6: with page size 9 and a page number `p >= 1`, the page computed by
`renderBusinesses` holds, at each position `j`, the element of the list at position
`(p-1)*9 + j` as long as that position is below `min(p*9, length)`, and nothing beyond:
it is the run of elements at positions `(p-1)*9 <= i < min(p*9, length)`, in order. -/
theorem businessesToShow_positions (D L : List Business) (p : Int) (hp : 1 ≤ p) :
    ((renderBusinesses.businessesToShow ⟨D, L, p, 9⟩).length =
        (min (p * 9) (L.length : Int) - (p - 1) * 9).toNat) ∧
    ∀ j : Nat, (renderBusinesses.businessesToShow ⟨D, L, p, 9⟩)[j]? =
      if (p - 1) * 9 + (j : Int) < min (p * 9) (L.length : Int) then
        L[((p - 1) * 9).toNat + j]?
      else none := by
  rw [businessesToShow_eq_take_drop D L p hp]
  constructor
  · simp only [List.length_take, List.length_drop]
    omega
  · intro j
    simp only [List.getElem?_take, List.getElem?_drop]
    by_cases hj : j < 9
    · by_cases hj2 : ((p - 1) * 9).toNat + j < L.length
      · have : (p - 1) * 9 + (j : Int) < min (p * 9) (L.length : Int) := by omega
        simp [this, hj]
      · have hnone : L[((p - 1) * 9).toNat + j]? = none :=
          List.getElem?_eq_none (by omega)
        simp [hnone]
    · have : ¬ (p - 1) * 9 + (j : Int) < min (p * 9) (L.length : Int) := by omega
      simp [this, hj]

/-- C6, witness: page 1 of the nine sample listings. -/
theorem businessesToShow_positions_witness :
    (1 : Int) ≤ 1 ∧
    (((renderBusinesses.businessesToShow ⟨[], sampleBusinesses, 1, 9⟩).length =
        (min ((1 : Int) * 9) (sampleBusinesses.length : Int) - (1 - 1) * 9).toNat) ∧
    ∀ j : Nat, (renderBusinesses.businessesToShow ⟨[], sampleBusinesses, 1, 9⟩)[j]? =
      if ((1 : Int) - 1) * 9 + (j : Int) < min ((1 : Int) * 9) (sampleBusinesses.length : Int)
      then sampleBusinesses[(((1 : Int) - 1) * 9).toNat + j]?
      else none) :=
  ⟨by decide, businessesToShow_positions [] sampleBusinesses 1 (by decide)⟩

/-- C7: with page size 9, the has-more flag computed by `renderBusinesses` on page `p`
is true exactly when `p * 9` is below the length of the list (at every integer `p`, so in
particular for `p >= 1`); when `#businessesGrid` and `#loadMoreBtn` exist, the button is
displayed (`block`) exactly in that case. -/
theorem hasMore_iff_lt_length (D L : List Business) (p : Int) :
    (renderBusinesses.hasMore ⟨D, L, p, 9⟩ = true ↔ p * 9 < (L.length : Int)) ∧
    ∀ (dom : Dom) (cards : List Business) (display : String),
      dom.businessesGrid = some cards → dom.loadMoreBtn = some display →
      ∃ dom2, renderBusinesses ⟨D, L, p, 9⟩ dom = .ok dom2 ∧
        (dom2.loadMoreBtn = some "block" ↔ p * 9 < (L.length : Int)) := by
  refine ⟨hasMore_iff D L p, ?_⟩
  intro dom cards display hgrid hbtn
  refine ⟨_, by simp only [renderBusinesses, hgrid]; rfl, ?_⟩
  simp only [hbtn, Option.map_some', Option.some.injEq]
  rw [← hasMore_iff D L p]
  by_cases h : renderBusinesses.hasMore ⟨D, L, p, 9⟩ = true
  · simp [h]
  · simp only [h, if_false, iff_false]
    decide

/-- C7, witness: page 1 of ten listings, with grid and button present, shows the button. -/
theorem hasMore_iff_lt_length_witness :
    (renderBusinesses.hasMore
        ⟨[], sampleBusinesses ++ sampleBusinesses.take 1, 1, 9⟩ = true ↔
      (1 : Int) * 9 < ((sampleBusinesses ++ sampleBusinesses.take 1).length : Int)) ∧
    ∃ dom2, renderBusinesses ⟨[], sampleBusinesses ++ sampleBusinesses.take 1, 1, 9⟩
        ⟨none, none, none, none, none, some [], some "none"⟩ = .ok dom2 ∧
      (dom2.loadMoreBtn = some "block" ↔
        (1 : Int) * 9 < ((sampleBusinesses ++ sampleBusinesses.take 1).length : Int)) :=
  ⟨(hasMore_iff_lt_length [] (sampleBusinesses ++ sampleBusinesses.take 1) 1).1,
    (hasMore_iff_lt_length [] (sampleBusinesses ++ sampleBusinesses.take 1) 1).2
      ⟨none, none, none, none, none, some [], some "none"⟩ [] "none" rfl rfl⟩

/-- C8: with page size 9, for a page number beyond `ceil(length / 9)`, `renderBusinesses`
computes an empty page and a false has-more flag, and returns normally: the grid, when
present, is emptied and the load-more button, when present, is hidden. -/
theorem renderBusinesses_beyond_last_page (D L : List Business) (p : Int) (dom : Dom)
    (hp : ⌈(L.length : ℚ) / 9⌉ < p) :
    renderBusinesses.businessesToShow ⟨D, L, p, 9⟩ = [] ∧
    renderBusinesses.hasMore ⟨D, L, p, 9⟩ = false ∧
    renderBusinesses ⟨D, L, p, 9⟩ dom = .ok
      (match dom.businessesGrid with
       | none => dom
       | some _ =>
         { dom with
           businessesGrid := some [], loadMoreBtn := dom.loadMoreBtn.map (fun _ => "none") }) := by
  rw [ceil_div_nine] at hp
  have hp1 : 1 ≤ p := by omega
  have hpage : renderBusinesses.businessesToShow ⟨D, L, p, 9⟩ = [] := by
    rw [businessesToShow_eq_take_drop D L p hp1]
    have : L.drop ((p - 1) * 9).toNat = [] := List.drop_eq_nil_of_le (by omega)
    rw [this]
    rfl
  have hmore : renderBusinesses.hasMore ⟨D, L, p, 9⟩ = false := by
    rw [Bool.eq_false_iff]
    intro h
    rw [hasMore_iff] at h
    omega
  refine ⟨hpage, hmore, ?_⟩
  cases hgrid : dom.businessesGrid with
  | none => simp only [renderBusinesses, hgrid]
  | some cards => simp [renderBusinesses, hgrid, hpage, hmore]

/-- C8, witness: page 2 of the nine sample listings. -/
theorem renderBusinesses_beyond_last_page_witness :
    (⌈(sampleBusinesses.length : ℚ) / 9⌉ < 2) ∧
    renderBusinesses.businessesToShow ⟨sampleBusinesses, sampleBusinesses, 2, 9⟩ = [] ∧
    renderBusinesses.hasMore ⟨sampleBusinesses, sampleBusinesses, 2, 9⟩ = false ∧
    renderBusinesses ⟨sampleBusinesses, sampleBusinesses, 2, 9⟩
        ⟨none, none, none, none, none, some sampleBusinesses, some "block"⟩ = .ok
      (match (⟨none, none, none, none, none, some sampleBusinesses, some "block"⟩ :
          Dom).businessesGrid with
       | none => ⟨none, none, none, none, none, some sampleBusinesses, some "block"⟩
       | some _ =>
         { (⟨none, none, none, none, none, some sampleBusinesses, some "block"⟩ : Dom) with
           businessesGrid := some [],
           loadMoreBtn := (⟨none, none, none, none, none, some sampleBusinesses,
             some "block"⟩ : Dom).loadMoreBtn.map (fun _ => "none") }) :=
  ⟨by rw [ceil_div_nine]; decide,
    renderBusinesses_beyond_last_page sampleBusinesses sampleBusinesses 2
      ⟨none, none, none, none, none, some sampleBusinesses, some "block"⟩
      (by rw [ceil_div_nine]; decide)⟩

/-! ## The sort stage -/

theorem consistentOn_of_key {α : Type} (compareFn : α → α → Option Int) (key : α → Int)
    (l : List α) (h : ∀ a ∈ l, ∀ b ∈ l, (compareFn a b).getD 0 = key a - key b) :
    consistentOn compareFn l = true := by
  unfold consistentOn
  simp only [List.all_eq_true, Bool.and_eq_true, decide_eq_true_eq]
  intro a ha b hb c hc
  rw [h a ha a ha, h a ha b hb, h b hb a ha, h b hb c hc, h a ha c hc]
  refine ⟨⟨⟨⟨?_, ?_⟩, ?_⟩, ?_⟩, ?_⟩ <;> omega

theorem sort_of_consistent {α : Type} (compareFn : α → α → Option Int) (l : List α)
    (h : consistentOn compareFn l = true) :
    sort compareFn l = l.insertionSort (fun a b => (compareFn a b).getD 0 ≤ 0) := by
  unfold sort
  rw [if_pos h]

theorem insertionPoint_fuel {α : Type} (compareFn : α → α → Option Int) (pivot : α)
    (work : List α) : ∀ (fuel fuel2 left right : Nat), right - left ≤ fuel →
      right - left ≤ fuel2 →
      binaryInsertionSort.insertionPoint compareFn pivot work fuel left right =
        binaryInsertionSort.insertionPoint compareFn pivot work fuel2 left right
  | 0, 0, _, _, _, _ => rfl
  | 0, fuel2 + 1, left, right, h, _ => by
    have hnot : ¬ left < right := by omega
    simp only [binaryInsertionSort.insertionPoint, if_neg hnot]
  | fuel + 1, 0, left, right, _, h => by
    have hnot : ¬ left < right := by omega
    simp only [binaryInsertionSort.insertionPoint, if_neg hnot]
  | fuel + 1, fuel2 + 1, left, right, h, h2 => by
    by_cases hlt : left < right
    · simp only [binaryInsertionSort.insertionPoint, if_pos hlt]
      cases hmid : work[left + (right - left) / 2]? with
      | none => rfl
      | some element =>
        simp only []
        split
        · exact insertionPoint_fuel compareFn pivot work fuel fuel2 left _
            (by omega) (by omega)
        · exact insertionPoint_fuel compareFn pivot work fuel fuel2 _ right
            (by omega) (by omega)
    · simp only [binaryInsertionSort.insertionPoint, if_neg hlt]

theorem binaryInsertionSort_perm {α : Type} (compareFn : α → α → Option Int) :
    ∀ (rest work : List α), (binaryInsertionSort compareFn work rest).Perm (work ++ rest)
  | [], work => by
    rw [binaryInsertionSort, List.append_nil]
  | pivot :: rest, work => by
    rw [binaryInsertionSort]
    have hmiddle : ∀ left : Nat,
        (work.take left ++ pivot :: work.drop left).Perm (pivot :: work) := by
      intro left
      have h := @List.perm_middle _ pivot (work.take left) (work.drop left)
      rwa [List.take_append_drop] at h
    exact (binaryInsertionSort_perm compareFn rest _).trans
      (((hmiddle _).append_right rest).trans List.perm_middle.symm)

theorem arrayTimSort_perm {α : Type} (compareFn : α → α → Option Int) :
    ∀ l : List α, (arrayTimSort compareFn l).Perm l
  | [] => by rw [arrayTimSort]
  | [a] => by rw [arrayTimSort]
  | elementHigh :: elementLow :: rest => by
    rw [arrayTimSort]
    refine (binaryInsertionSort_perm compareFn _ _).trans ?_
    have hsplit := List.take_append_drop
      (2 + countAndMakeRun.extend compareFn
        (decide ((compareFn elementLow elementHigh).getD 0 < 0)) elementLow rest)
      (elementHigh :: elementLow :: rest)
    refine (List.Perm.append_right _ ?_).trans (List.Perm.of_eq hsplit)
    split
    · exact List.reverse_perm _
    · exact List.Perm.refl _

theorem orderedInsert_congr {α : Type} (r s : α → α → Prop) [DecidableRel r] [DecidableRel s]
    (a : α) : ∀ l : List α, (∀ b ∈ l, r a b ↔ s a b) →
      List.orderedInsert r a l = List.orderedInsert s a l
  | [], _ => rfl
  | b :: l, h => by
    have hb : r a b ↔ s a b := h b (List.mem_cons_self _ _)
    have ih := orderedInsert_congr r s a l (fun c hc => h c (List.mem_cons_of_mem _ hc))
    by_cases hr : r a b
    · rw [List.orderedInsert, List.orderedInsert, if_pos hr, if_pos (hb.mp hr)]
    · rw [List.orderedInsert, List.orderedInsert, if_neg hr, if_neg (fun hs => hr (hb.mpr hs)), ih]

theorem insertionSort_congr {α : Type} (r s : α → α → Prop) [DecidableRel r] [DecidableRel s] :
    ∀ l : List α, (∀ a ∈ l, ∀ b ∈ l, r a b ↔ s a b) →
      List.insertionSort r l = List.insertionSort s l
  | [], _ => rfl
  | a :: l, h => by
    have ih := insertionSort_congr r s l
      (fun x hx y hy => h x (List.mem_cons_of_mem _ hx) y (List.mem_cons_of_mem _ hy))
    rw [List.insertionSort, List.insertionSort, ih]
    apply orderedInsert_congr
    intro b hb
    exact h a (List.mem_cons_self _ _) b
      (List.mem_cons_of_mem _ ((List.mem_insertionSort s).mp hb))

theorem orderedInsert_featured (a : Business) (ha : a.featured = true) (l : List Business) :
    List.orderedInsert (fun x y => (sortBusinesses.compareFeatured x y).getD 0 ≤ 0) a l =
      a :: l := by
  cases l with
  | nil => rfl
  | cons b t =>
    apply List.orderedInsert_of_le
    simp only [sortBusinesses.compareFeatured, ha, Option.getD_some, if_true]
    split <;> omega

theorem orderedInsert_not_featured (a : Business) (ha : a.featured = false) :
    ∀ (xs ys : List Business), (∀ x ∈ xs, x.featured = true) →
      (∀ y ∈ ys, y.featured = false) →
      List.orderedInsert (fun x y => (sortBusinesses.compareFeatured x y).getD 0 ≤ 0) a
          (xs ++ ys) = xs ++ a :: ys
  | [], [], _, _ => rfl
  | [], y :: t, _, hys => by
    have hy : y.featured = false := hys y (List.mem_cons_self _ _)
    simp [List.orderedInsert, sortBusinesses.compareFeatured, ha, hy]
  | x :: xs, ys, hxs, hys => by
    have hx : x.featured = true := hxs x (List.mem_cons_self _ _)
    have ih := orderedInsert_not_featured a ha xs ys
      (fun z hz => hxs z (List.mem_cons_of_mem _ hz)) hys
    have hnot : ¬ (sortBusinesses.compareFeatured a x).getD 0 ≤ 0 := by
      simp [sortBusinesses.compareFeatured, ha, hx]
    rw [List.cons_append, List.orderedInsert, if_neg hnot, ih, List.cons_append]

theorem insertionSort_compareFeatured : ∀ l : List Business,
    l.insertionSort (fun x y => (sortBusinesses.compareFeatured x y).getD 0 ≤ 0) =
      l.filter (fun b => b.featured) ++ l.filter (fun b => !b.featured)
  | [] => rfl
  | a :: l => by
    have ih := insertionSort_compareFeatured l
    simp only [List.insertionSort, ih]
    cases ha : a.featured with
    | true =>
      rw [orderedInsert_featured a ha]
      simp [List.filter_cons, ha]
    | false =>
      rw [orderedInsert_not_featured a ha _ _ (fun x hx => by simpa using (List.mem_filter.mp hx).2)
        (fun y hy => by simpa using (List.mem_filter.mp hy).2)]
      simp [List.filter_cons, ha]

theorem consistentOn_compareFeatured (l : List Business) :
    consistentOn sortBusinesses.compareFeatured l = true :=
  consistentOn_of_key _ (fun b => - (if b.featured then 1 else 0)) l
    (fun a _ b _ => by
      simp only [sortBusinesses.compareFeatured, Option.getD_some]
      omega)

theorem sort_compareFeatured (l : List Business) :
    sort sortBusinesses.compareFeatured l =
      l.filter (fun b => b.featured) ++ l.filter (fun b => !b.featured) := by
  rw [sort_of_consistent _ _ (consistentOn_compareFeatured l)]
  exact insertionSort_compareFeatured l

/-- C9: with key `featured`, `sortBusinesses` yields the listings with `featured = true`
in their input order, followed by the listings with `featured = false` in their input
order. -/
theorem sortedBusinesses_featured (app : PearllinkApp) (dom : Dom) :
    sortBusinesses.sortedBusinesses app { dom with sortSelect := some "featured" } =
      app.businesses.filter (fun b => b.featured) ++
        app.businesses.filter (fun b => !b.featured) := by
  have hkey : sortBusinesses.sortValue { dom with sortSelect := some "featured" } =
      "featured" := by
    simp [sortBusinesses.sortValue, falsy]
  simp only [sortBusinesses.sortedBusinesses, hkey, getCurrentDisplayedBusinesses]
  exact sort_compareFeatured app.businesses

theorem sort_perm {α : Type} (compareFn : α → α → Option Int) (l : List α) :
    (sort compareFn l).Perm l := by
  unfold sort
  split
  · exact List.perm_insertionSort _ l
  · exact arrayTimSort_perm compareFn l

theorem sort_pairwise_of_key (key : Business → Int) (compareFn : Business → Business → Option Int)
    (l : List Business)
    (h : ∀ a ∈ l, ∀ b ∈ l, (compareFn a b).getD 0 = key a - key b) :
    (sort compareFn l).Pairwise (fun a b => key a ≤ key b) := by
  rw [sort_of_consistent _ _ (consistentOn_of_key compareFn key l h)]
  have hcongr : l.insertionSort (fun a b => (compareFn a b).getD 0 ≤ 0) =
      l.insertionSort (fun a b => key a ≤ key b) :=
    insertionSort_congr _ _ l (fun a ha b hb => by rw [h a ha b hb]; omega)
  rw [hcongr]
  haveI : IsTotal Business (fun a b => key a ≤ key b) := ⟨fun a b => le_total _ _⟩
  haveI : IsTrans Business (fun a b => key a ≤ key b) := ⟨fun _ _ _ => le_trans⟩
  exact List.sorted_insertionSort (fun a b => key a ≤ key b) l

/-- C10: the output of `sortBusinesses` is a permutation of the listings, in non-decreasing
order of price for key `price-low` and in non-increasing order of price for key
`price-high`. -/
theorem sortedBusinesses_price (app : PearllinkApp) (dom : Dom) :
    ((sortBusinesses.sortedBusinesses app { dom with sortSelect := some "price-low" }).Perm
        app.businesses ∧
      (sortBusinesses.sortedBusinesses app { dom with sortSelect := some "price-low" }).Pairwise
        (fun a b => a.price ≤ b.price)) ∧
    ((sortBusinesses.sortedBusinesses app { dom with sortSelect := some "price-high" }).Perm
        app.businesses ∧
      (sortBusinesses.sortedBusinesses app { dom with sortSelect := some "price-high" }).Pairwise
        (fun a b => a.price ≥ b.price)) := by
  have hlow : sortBusinesses.sortValue { dom with sortSelect := some "price-low" } =
      "price-low" := by
    simp [sortBusinesses.sortValue, falsy]
  have hhigh : sortBusinesses.sortValue { dom with sortSelect := some "price-high" } =
      "price-high" := by
    simp [sortBusinesses.sortValue, falsy]
  have hne : ¬ ("price-high" = "price-low") := by decide
  simp only [sortBusinesses.sortedBusinesses, hlow, hhigh, hne, if_true, if_false,
    getCurrentDisplayedBusinesses]
  refine ⟨⟨sort_perm _ _, ?_⟩, ⟨sort_perm _ _, ?_⟩⟩
  · exact sort_pairwise_of_key (fun b => b.price) _ app.businesses
      (fun a _ b _ => rfl)
  · have := sort_pairwise_of_key (fun b => - b.price) (fun a b => some (b.price - a.price))
      app.businesses (fun a _ b _ => by simp only [Option.getD_some]; omega)
    refine List.Pairwise.imp (fun {a b} hab => ?_) this
    have hneg : - a.price ≤ - b.price := hab
    simp only [ge_iff_le]
    omega

/-! ## The methods and the application state -/

/-- C19: in the dataset installed by `loadSampleBusinesses`, every listing has a positive
id and no two listings share an id. -/
theorem loadSampleBusinesses_ids (app : PearllinkApp) (dom : Dom) :
    (∀ business ∈ (loadSampleBusinesses app dom).app.businesses, 0 < business.id) ∧
    ((loadSampleBusinesses app dom).app.businesses.map (fun business => business.id)).Nodup := by
  have hdata : (loadSampleBusinesses app dom).app.businesses = sampleBusinesses := by
    unfold loadSampleBusinesses
    dsimp only
    split <;> rfl
  rw [hdata]
  constructor <;> decide

/-- C20: on the sample dataset, with no search term, no industry or location filter and
the price selector `500000-1000000`, `filterBusinesses` computes the listings with ids
2, 5, 7, 9 in that order, which are exactly the sample listings priced in
(500000, 1000000]; id 7 (750000) is among them and id 6 (1200000) is not. -/
theorem filteredBusinesses_sample_price_band :
    ((filterBusinesses.filteredBusinesses ⟨sampleBusinesses, sampleBusinesses, 1, 9⟩
        ⟨some "", some "", some "500000-1000000", some "", none, none, none⟩).map
        (fun business => business.id) = [2, 5, 7, 9]) ∧
    (filterBusinesses.filteredBusinesses ⟨sampleBusinesses, sampleBusinesses, 1, 9⟩
        ⟨some "", some "", some "500000-1000000", some "", none, none, none⟩ =
      sampleBusinesses.filter
        (fun business => decide (500000 < business.price ∧ business.price ≤ 1000000))) ∧
    (∃ business ∈ filterBusinesses.filteredBusinesses
        ⟨sampleBusinesses, sampleBusinesses, 1, 9⟩
        ⟨some "", some "", some "500000-1000000", some "", none, none, none⟩,
      business.id = 7 ∧ business.price = 750000) ∧
    (∀ business ∈ filterBusinesses.filteredBusinesses
        ⟨sampleBusinesses, sampleBusinesses, 1, 9⟩
        ⟨some "", some "", some "500000-1000000", some "", none, none, none⟩,
      business.id ≠ 6) ∧
    (∃ business ∈ sampleBusinesses, business.id = 6 ∧ business.price = 1200000) := by
  refine ⟨by decide, by decide, by decide, by decide, by decide⟩

theorem filterBusinesses_app (app : PearllinkApp) (dom : Dom) :
    (filterBusinesses app dom).app = app := by
  unfold filterBusinesses
  dsimp only
  split <;> rfl

theorem sortBusinesses_app (app : PearllinkApp) (dom : Dom) :
    (sortBusinesses app dom).app = app := by
  unfold sortBusinesses
  dsimp only
  split <;> rfl

theorem loadMoreBusinesses_app (app : PearllinkApp) (dom : Dom) :
    (loadMoreBusinesses app dom).app = { app with currentPage := app.currentPage + 1 } := by
  unfold loadMoreBusinesses
  dsimp only
  split <;> rfl

theorem sortedBusinesses_perm (app : PearllinkApp) (dom : Dom) :
    (sortBusinesses.sortedBusinesses app dom).Perm app.businesses := by
  unfold sortBusinesses.sortedBusinesses getCurrentDisplayedBusinesses
  dsimp only
  split_ifs <;> exact sort_perm _ _

theorem sortedBusinesses_unknown_key (app : PearllinkApp) (dom : Dom)
    (h1 : sortBusinesses.sortValue dom ≠ "price-low")
    (h2 : sortBusinesses.sortValue dom ≠ "price-high")
    (h3 : sortBusinesses.sortValue dom ≠ "newest")
    (h4 : sortBusinesses.sortValue dom ≠ "oldest") :
    sortBusinesses.sortedBusinesses app dom =
      sortBusinesses.sortedBusinesses app { dom with sortSelect := some "featured" } := by
  have hkey : sortBusinesses.sortValue { dom with sortSelect := some "featured" } =
      "featured" := by
    simp [sortBusinesses.sortValue, falsy]
  simp only [sortBusinesses.sortedBusinesses, hkey, if_neg h1, if_neg h2, if_neg h3, if_neg h4]
  rfl

/-- C13, at the failing input: with the unknown key `rating` on the sample dataset the
`switch` falls back to the `featured` ordering, but the call ends with a `TypeError`, as
every call of `sortBusinesses` does: the sorted copy is handed to `displayBusinesses`, which
the class does not define. -/
theorem sortBusinesses_unknown_key_throws :
    (∀ (app : PearllinkApp) (dom : Dom), (sortBusinesses app dom).thrown =
      some (JsError.typeError "this.displayBusinesses is not a function")) ∧
    (sortBusinesses ⟨sampleBusinesses, sampleBusinesses, 1, 9⟩
        ⟨none, none, none, none, some "rating", some sampleBusinesses, some "none"⟩).thrown =
      some (JsError.typeError "this.displayBusinesses is not a function") ∧
    sortBusinesses.sortedBusinesses ⟨sampleBusinesses, sampleBusinesses, 1, 9⟩
        ⟨none, none, none, none, some "rating", some sampleBusinesses, some "none"⟩ =
      sortBusinesses.sortedBusinesses ⟨sampleBusinesses, sampleBusinesses, 1, 9⟩
        ⟨none, none, none, none, some "featured", some sampleBusinesses, some "none"⟩ :=
  ⟨fun _ _ => rfl, rfl,
    sortedBusinesses_unknown_key _ _ (by decide) (by decide) (by decide) (by decide)⟩

/-- C14, at the failing input: from a state with `currentPage = 2` the `filterBusinesses`
in effect ends with `currentPage = 2`; it never assigns a field of the application object
(and it ends with the `TypeError` of the `displayBusinesses` call). -/
theorem filterBusinesses_keeps_currentPage :
    (∀ (app : PearllinkApp) (dom : Dom), (filterBusinesses app dom).app = app) ∧
    (filterBusinesses ⟨sampleBusinesses, sampleBusinesses, 2, 9⟩
        ⟨some "", some "technology", some "", some "", none, some [], some "none"⟩).app.currentPage
      = 2 ∧
    (filterBusinesses ⟨sampleBusinesses, sampleBusinesses, 2, 9⟩
        ⟨some "", some "technology", some "", some "", none, some [], some "none"⟩).thrown =
      some (JsError.typeError "this.displayBusinesses is not a function") :=
  ⟨filterBusinesses_app, rfl, rfl⟩

/-- C15, at the failing input: `sortBusinesses` leaves `currentPage` unchanged in every
state, but from a state with `currentPage = 2` a filter change, one load-more and a sort by
`price-low` end with `currentPage = 3`, not 2: the filter step does not reset the page. -/
theorem sortBusinesses_keeps_currentPage_scenario :
    (∀ (app : PearllinkApp) (dom : Dom),
      (sortBusinesses app dom).app.currentPage = app.currentPage) ∧
    (filterBusinesses ⟨sampleBusinesses, sampleBusinesses, 2, 9⟩
        ⟨some "", some "technology", some "", some "", some "featured", some [],
          some "none"⟩).app.currentPage = 2 ∧
    (loadMoreBusinesses
        (filterBusinesses ⟨sampleBusinesses, sampleBusinesses, 2, 9⟩
          ⟨some "", some "technology", some "", some "", some "featured", some [],
            some "none"⟩).app
        (filterBusinesses ⟨sampleBusinesses, sampleBusinesses, 2, 9⟩
          ⟨some "", some "technology", some "", some "", some "featured", some [],
            some "none"⟩).dom).app.currentPage = 3 ∧
    (sortBusinesses
        (loadMoreBusinesses
          (filterBusinesses ⟨sampleBusinesses, sampleBusinesses, 2, 9⟩
            ⟨some "", some "technology", some "", some "", some "featured", some [],
              some "none"⟩).app
          (filterBusinesses ⟨sampleBusinesses, sampleBusinesses, 2, 9⟩
            ⟨some "", some "technology", some "", some "", some "featured", some [],
              some "none"⟩).dom).app
        { (loadMoreBusinesses
          (filterBusinesses ⟨sampleBusinesses, sampleBusinesses, 2, 9⟩
            ⟨some "", some "technology", some "", some "", some "featured", some [],
              some "none"⟩).app
          (filterBusinesses ⟨sampleBusinesses, sampleBusinesses, 2, 9⟩
            ⟨some "", some "technology", some "", some "", some "featured", some [],
              some "none"⟩).dom).dom with sortSelect := some "price-low" }).app.currentPage
      = 3 := by
  refine ⟨fun app dom => by rw [sortBusinesses_app], rfl, ?_, ?_⟩
  · rw [loadMoreBusinesses_app, filterBusinesses_app]
    rfl
  · rw [sortBusinesses_app, loadMoreBusinesses_app, filterBusinesses_app]
    rfl

/-- C16: `loadMoreBusinesses` increases `currentPage` by exactly 1, leaves `businesses`,
`filteredBusinesses` and `businessesPerPage` unchanged, and returns normally. -/
theorem loadMoreBusinesses_frame (app : PearllinkApp) (dom : Dom) :
    (loadMoreBusinesses app dom).app.currentPage = app.currentPage + 1 ∧
    (loadMoreBusinesses app dom).app.businesses = app.businesses ∧
    (loadMoreBusinesses app dom).app.filteredBusinesses = app.filteredBusinesses ∧
    (loadMoreBusinesses app dom).app.businessesPerPage = app.businessesPerPage ∧
    (loadMoreBusinesses app dom).thrown = none := by
  rw [loadMoreBusinesses_app]
  refine ⟨rfl, rfl, rfl, rfl, ?_⟩
  unfold loadMoreBusinesses renderBusinesses
  dsimp only
  cases dom.businessesGrid <;> rfl

/-- C17: none of `filterBusinesses`, `sortBusinesses` and `loadMoreBusinesses` changes the
dataset: the `businesses` list after the call is the list before the call. -/
theorem businesses_unchanged (app : PearllinkApp) (dom : Dom) :
    (filterBusinesses app dom).app.businesses = app.businesses ∧
    (sortBusinesses app dom).app.businesses = app.businesses ∧
    (loadMoreBusinesses app dom).app.businesses = app.businesses := by
  rw [filterBusinesses_app, sortBusinesses_app, loadMoreBusinesses_app]
  exact ⟨rfl, rfl, rfl⟩

/-- C18, at the failing input: on the sample dataset with the industry filter `technology`
(which keeps ids 1 and 9) and the sort key `price-low`, the list that `sortBusinesses` hands
to `displayBusinesses` is the whole dataset in price order, ids 3, 5, 7, 2, 9, 6, 1, 8, 4:
it holds listings that the filter excludes, as it is in every state a permutation of
`businesses`. -/
theorem sortedBusinesses_ignores_filters :
    (∀ (app : PearllinkApp) (dom : Dom),
      (sortBusinesses.sortedBusinesses app dom).Perm app.businesses) ∧
    ((filterBusinesses.filteredBusinesses ⟨sampleBusinesses, sampleBusinesses, 1, 9⟩
        ⟨some "", some "technology", some "", some "", some "price-low", some [],
          some "none"⟩).map (fun business => business.id) = [1, 9]) ∧
    ((sortBusinesses.sortedBusinesses ⟨sampleBusinesses, sampleBusinesses, 1, 9⟩
        ⟨some "", some "technology", some "", some "", some "price-low", some [],
          some "none"⟩).map (fun business => business.id) = [3, 5, 7, 2, 9, 6, 1, 8, 4]) ∧
    (∃ business ∈ sortBusinesses.sortedBusinesses ⟨sampleBusinesses, sampleBusinesses, 1, 9⟩
        ⟨some "", some "technology", some "", some "", some "price-low", some [],
          some "none"⟩,
      business ∉ filterBusinesses.filteredBusinesses
        ⟨sampleBusinesses, sampleBusinesses, 1, 9⟩
        ⟨some "", some "technology", some "", some "", some "price-low", some [],
          some "none"⟩) := by
  refine ⟨sortedBusinesses_perm, by decide, by decide, by decide⟩

/-! ## Stability and the date keys -/

theorem sort_pair_sublist {α : Type} (compareFn : α → α → Option Int) (l : List α) (a b : α)
    (hc : consistentOn compareFn l = true)
    (hab : (compareFn a b).getD 0 ≤ 0) (h : List.Sublist [a, b] l) :
    List.Sublist [a, b] (sort compareFn l) := by
  rw [sort_of_consistent _ _ hc]
  exact List.pair_sublist_insertionSort hab h

theorem consistentOn_flip {α : Type} (compareFn : α → α → Option Int) (l : List α)
    (h : consistentOn compareFn l = true) :
    consistentOn (fun a b => compareFn b a) l = true := by
  unfold consistentOn at h ⊢
  simp only [List.all_eq_true, Bool.and_eq_true, decide_eq_true_eq] at h ⊢
  intro a ha b hb c hc
  have hcba := h c hc b hb a ha
  have hba := h b hb a ha a ha
  have haa := h a ha a ha a ha
  exact ⟨⟨⟨⟨haa.1.1.1.1, hba.1.1.1.2⟩, fun h1 h2 => hcba.1.1.2 h2 h1⟩,
    fun h1 h2 => hcba.1.2 h2 h1⟩, fun h1 h2 => hcba.2 h2 h1⟩

theorem dateDifference_of_isSome (l : List Business)
    (hall : ∀ business ∈ l, business.dateAdded.isSome = true) :
    ∀ a ∈ l, ∀ b ∈ l,
      (sortBusinesses.dateDifference a b).getD 0 = a.dateAdded.getD 0 - b.dateAdded.getD 0 := by
  intro a ha b hb
  obtain ⟨x, hx⟩ := Option.isSome_iff_exists.mp (hall a ha)
  obtain ⟨y, hy⟩ := Option.isSome_iff_exists.mp (hall b hb)
  simp only [sortBusinesses.dateDifference, hx, hy, Option.getD_some]

theorem dateDifference_of_none (l : List Business)
    (hnone : ∀ business ∈ l, business.dateAdded = none) :
    ∀ a ∈ l, ∀ b ∈ l, (sortBusinesses.dateDifference a b).getD 0 = 0 := by
  intro a ha b _
  simp [sortBusinesses.dateDifference, hnone a ha]

/-- C11 (as the code has it): `sortBusinesses` is stable wherever its comparator is
consistent. When listing `a` comes before listing `b` in the input, `a` comes before `b` in
the output: for `price-low` and `price-high` if the two have the same price; for `featured`
and every other key if they have the same featured flag; for `newest` and `oldest` if they
have the same timestamp and the date comparator is consistent on the listings, which it is
when every listing carries a timestamp and when none does. -/
theorem sortedBusinesses_stable (app : PearllinkApp) (dom : Dom) (a b : Business)
    (h : List.Sublist [a, b] app.businesses) :
    ((sortBusinesses.sortValue dom = "price-low" ∨ sortBusinesses.sortValue dom = "price-high") →
      a.price = b.price → List.Sublist [a, b] (sortBusinesses.sortedBusinesses app dom)) ∧
    ((sortBusinesses.sortValue dom = "newest" ∨ sortBusinesses.sortValue dom = "oldest") →
      consistentOn (fun x y => sortBusinesses.dateDifference x y) app.businesses = true →
      a.dateAdded = b.dateAdded →
      List.Sublist [a, b] (sortBusinesses.sortedBusinesses app dom)) ∧
    ((sortBusinesses.sortValue dom ≠ "price-low" ∧ sortBusinesses.sortValue dom ≠ "price-high" ∧
        sortBusinesses.sortValue dom ≠ "newest" ∧ sortBusinesses.sortValue dom ≠ "oldest") →
      a.featured = b.featured →
      List.Sublist [a, b] (sortBusinesses.sortedBusinesses app dom)) ∧
    (((∀ business ∈ app.businesses, business.dateAdded.isSome = true) ∨
        (∀ business ∈ app.businesses, business.dateAdded = none)) →
      consistentOn (fun x y => sortBusinesses.dateDifference x y) app.businesses = true) := by
  have hdate : ∀ x y : Business, x.dateAdded = y.dateAdded →
      (sortBusinesses.dateDifference x y).getD 0 ≤ 0 := by
    intro x y hxy
    unfold sortBusinesses.dateDifference
    rw [hxy]
    cases y.dateAdded <;> simp
  refine ⟨?_, ?_, ?_, ?_⟩
  · intro hkey hprice
    have hlow : consistentOn (fun x y : Business => some (x.price - y.price))
        app.businesses = true :=
      consistentOn_of_key _ (fun x : Business => x.price) _ (fun _ _ _ _ => rfl)
    have hhigh : consistentOn (fun x y : Business => some (y.price - x.price))
        app.businesses = true :=
      consistentOn_flip _ _ hlow
    unfold sortBusinesses.sortedBusinesses getCurrentDisplayedBusinesses
    dsimp only
    split_ifs
    all_goals first
      | exact sort_pair_sublist _ _ a b hlow (by simp only [Option.getD_some]; omega) h
      | exact sort_pair_sublist _ _ a b hhigh (by simp only [Option.getD_some]; omega) h
      | (rcases hkey with hk | hk <;> contradiction)
  · intro hkey hcons hd
    have hflip := consistentOn_flip _ _ hcons
    unfold sortBusinesses.sortedBusinesses getCurrentDisplayedBusinesses
    dsimp only
    split_ifs
    all_goals first
      | exact sort_pair_sublist _ _ a b hcons (hdate _ _ hd) h
      | exact sort_pair_sublist _ _ a b hflip (hdate _ _ hd.symm) h
      | (rcases hkey with hk | hk <;> simp_all)
  · intro hkey hfeat
    unfold sortBusinesses.sortedBusinesses getCurrentDisplayedBusinesses
    dsimp only
    rw [if_neg hkey.1, if_neg hkey.2.1, if_neg hkey.2.2.1, if_neg hkey.2.2.2]
    apply sort_pair_sublist _ _ a b (consistentOn_compareFeatured _) _ h
    simp [sortBusinesses.compareFeatured, hfeat]
  · intro hdates
    rcases hdates with hall | hnone
    · exact consistentOn_of_key _ (fun x => x.dateAdded.getD 0) _
        (dateDifference_of_isSome _ hall)
    · exact consistentOn_of_key _ (fun _ => 0) _
        (fun x hx y hy => by rw [dateDifference_of_none _ hnone x hx y hy]; rfl)

/-- C11, witness: one input for each part. Two sample listings given the same price keep
their order under `price-low`; two listings stamped 5, in a list where every listing is
stamped, keep their order under `oldest`; the first two sample listings, both featured,
keep their order under the default key. -/
theorem sortedBusinesses_stable_witness :
    (List.Sublist [(sampleBusinesses.get ⟨0, by decide⟩), { (sampleBusinesses.get ⟨1, by decide⟩) with price := 2500000 }]
        [(sampleBusinesses.get ⟨2, by decide⟩), (sampleBusinesses.get ⟨0, by decide⟩), { (sampleBusinesses.get ⟨1, by decide⟩) with price := 2500000 }] ∧
      ((sampleBusinesses.get ⟨0, by decide⟩)).price = ({ (sampleBusinesses.get ⟨1, by decide⟩) with price := 2500000 } : Business).price ∧
      List.Sublist [(sampleBusinesses.get ⟨0, by decide⟩), { (sampleBusinesses.get ⟨1, by decide⟩) with price := 2500000 }]
        (sortBusinesses.sortedBusinesses
          ⟨[(sampleBusinesses.get ⟨2, by decide⟩), (sampleBusinesses.get ⟨0, by decide⟩), { (sampleBusinesses.get ⟨1, by decide⟩) with price := 2500000 }], [], 1, 9⟩
          ⟨none, none, none, none, some "price-low", none, none⟩)) ∧
    (List.Sublist [{ (sampleBusinesses.get ⟨0, by decide⟩) with dateAdded := some 5 }, { (sampleBusinesses.get ⟨2, by decide⟩) with dateAdded := some 5 }]
        [{ (sampleBusinesses.get ⟨0, by decide⟩) with dateAdded := some 5 }, { (sampleBusinesses.get ⟨1, by decide⟩) with dateAdded := some 1 },
          { (sampleBusinesses.get ⟨2, by decide⟩) with dateAdded := some 5 }] ∧
      (∀ business ∈ [{ (sampleBusinesses.get ⟨0, by decide⟩) with dateAdded := some 5 }, { (sampleBusinesses.get ⟨1, by decide⟩) with dateAdded := some 1 },
          { (sampleBusinesses.get ⟨2, by decide⟩) with dateAdded := some 5 }], business.dateAdded.isSome = true) ∧
      List.Sublist [{ (sampleBusinesses.get ⟨0, by decide⟩) with dateAdded := some 5 }, { (sampleBusinesses.get ⟨2, by decide⟩) with dateAdded := some 5 }]
        (sortBusinesses.sortedBusinesses
          ⟨[{ (sampleBusinesses.get ⟨0, by decide⟩) with dateAdded := some 5 }, { (sampleBusinesses.get ⟨1, by decide⟩) with dateAdded := some 1 },
            { (sampleBusinesses.get ⟨2, by decide⟩) with dateAdded := some 5 }], [], 1, 9⟩
          ⟨none, none, none, none, some "oldest", none, none⟩)) ∧
    (List.Sublist [(sampleBusinesses.get ⟨0, by decide⟩), (sampleBusinesses.get ⟨1, by decide⟩)] sampleBusinesses ∧
      ((sampleBusinesses.get ⟨0, by decide⟩)).featured = ((sampleBusinesses.get ⟨1, by decide⟩)).featured ∧
      List.Sublist [(sampleBusinesses.get ⟨0, by decide⟩), (sampleBusinesses.get ⟨1, by decide⟩)]
        (sortBusinesses.sortedBusinesses ⟨sampleBusinesses, sampleBusinesses, 1, 9⟩
          ⟨none, none, none, none, none, none, none⟩)) := by
  refine ⟨⟨by decide, rfl, ?_⟩, ⟨by decide, by decide, ?_⟩, ⟨by decide, rfl, ?_⟩⟩
  · exact (sortedBusinesses_stable
      ⟨[(sampleBusinesses.get ⟨2, by decide⟩), (sampleBusinesses.get ⟨0, by decide⟩), { (sampleBusinesses.get ⟨1, by decide⟩) with price := 2500000 }], [], 1, 9⟩
      ⟨none, none, none, none, some "price-low", none, none⟩
      ((sampleBusinesses.get ⟨0, by decide⟩)) { (sampleBusinesses.get ⟨1, by decide⟩) with price := 2500000 } (by decide)).1 (Or.inl (by decide)) rfl
  · have hthm := sortedBusinesses_stable
      ⟨[{ (sampleBusinesses.get ⟨0, by decide⟩) with dateAdded := some 5 }, { (sampleBusinesses.get ⟨1, by decide⟩) with dateAdded := some 1 },
        { (sampleBusinesses.get ⟨2, by decide⟩) with dateAdded := some 5 }], [], 1, 9⟩
      ⟨none, none, none, none, some "oldest", none, none⟩
      { (sampleBusinesses.get ⟨0, by decide⟩) with dateAdded := some 5 } { (sampleBusinesses.get ⟨2, by decide⟩) with dateAdded := some 5 } (by decide)
    exact hthm.2.1 (Or.inr (by decide)) (hthm.2.2.2 (Or.inl (by decide))) rfl
  · exact (sortedBusinesses_stable ⟨sampleBusinesses, sampleBusinesses, 1, 9⟩
      ⟨none, none, none, none, none, none, none⟩ ((sampleBusinesses.get ⟨0, by decide⟩)) ((sampleBusinesses.get ⟨1, by decide⟩)) (by decide)).2.2.1
      ⟨by decide, by decide, by decide, by decide⟩ rfl

/-- C11, counterexample: seven sample listings of which only some are stamped, ids 1 to 7
with timestamps none, none, 2, 1, none, 1, 1, under key `oldest`. The comparator is
inconsistent (id 3 is above id 4, yet both compare equal to the unstamped id 2) and the
output is ids 1, 2, 4, 7, 3, 5, 6: the listings with ids 6 and 7 have the same timestamp,
6 comes first in the input and 7 comes first in the output. -/
theorem sortedBusinesses_oldest_not_stable :
    ((List.zipWith
          (fun (business : Business) (stamp : Option Int) => { business with dateAdded := stamp })
          (sampleBusinesses.take 7) [none, none, some 2, some 1, none, some 1, some 1]).map
        (fun business => business.id) = [1, 2, 3, 4, 5, 6, 7]) ∧
    ((sortBusinesses.sortedBusinesses
        ⟨(List.zipWith
          (fun (business : Business) (stamp : Option Int) => { business with dateAdded := stamp })
          (sampleBusinesses.take 7) [none, none, some 2, some 1, none, some 1, some 1]), [], 1, 9⟩
        ⟨none, none, none, none, some "oldest", none, none⟩).map
        (fun business => business.id) = [1, 2, 4, 7, 3, 5, 6]) ∧
    ({ sampleBusinesses.get ⟨5, by decide⟩ with dateAdded := some 1 } : Business).dateAdded = ({ sampleBusinesses.get ⟨6, by decide⟩ with dateAdded := some 1 } : Business).dateAdded ∧
    List.Sublist [{ sampleBusinesses.get ⟨5, by decide⟩ with dateAdded := some 1 }, { sampleBusinesses.get ⟨6, by decide⟩ with dateAdded := some 1 }]
      (List.zipWith
          (fun (business : Business) (stamp : Option Int) => { business with dateAdded := stamp })
          (sampleBusinesses.take 7) [none, none, some 2, some 1, none, some 1, some 1]) ∧
    ¬ List.Sublist [{ sampleBusinesses.get ⟨5, by decide⟩ with dateAdded := some 1 }, { sampleBusinesses.get ⟨6, by decide⟩ with dateAdded := some 1 }]
      (sortBusinesses.sortedBusinesses
        ⟨(List.zipWith
          (fun (business : Business) (stamp : Option Int) => { business with dateAdded := stamp })
          (sampleBusinesses.take 7) [none, none, some 2, some 1, none, some 1, some 1]), [], 1, 9⟩
        ⟨none, none, none, none, some "oldest", none, none⟩) := by
  refine ⟨by decide, by decide, rfl, by decide, by decide⟩

theorem sort_dateDifference_pairwise (l : List Business)
    (hall : ∀ business ∈ l, business.dateAdded.isSome = true) :
    (sort (fun a b => sortBusinesses.dateDifference a b) l).Pairwise
      (fun a b => ∃ x y, a.dateAdded = some x ∧ b.dateAdded = some y ∧ x ≤ y) ∧
    (sort (fun a b => sortBusinesses.dateDifference b a) l).Pairwise
      (fun a b => ∃ x y, a.dateAdded = some x ∧ b.dateAdded = some y ∧ y ≤ x) := by
  have hdiff := dateDifference_of_isSome l hall
  have hsome : ∀ a ∈ l, ∀ b ∈ l, ∀ (p : Int → Int → Prop),
      p (a.dateAdded.getD 0) (b.dateAdded.getD 0) →
      ∃ x y, a.dateAdded = some x ∧ b.dateAdded = some y ∧ p x y := by
    intro a ha b hb p hp
    obtain ⟨x, hx⟩ := Option.isSome_iff_exists.mp (hall a ha)
    obtain ⟨y, hy⟩ := Option.isSome_iff_exists.mp (hall b hb)
    rw [hx, hy] at hp
    exact ⟨x, y, hx, hy, hp⟩
  constructor
  · have hp := sort_pairwise_of_key (fun b => b.dateAdded.getD 0)
      (fun a b => sortBusinesses.dateDifference a b) l hdiff
    refine List.Pairwise.imp_of_mem ?_ hp
    intro a b ha hb hab
    exact hsome a ((sort_perm _ l).mem_iff.mp ha) b ((sort_perm _ l).mem_iff.mp hb)
      (fun x y => x ≤ y) hab
  · have hp := sort_pairwise_of_key (fun b => - b.dateAdded.getD 0)
      (fun a b => sortBusinesses.dateDifference b a) l
      (fun a ha b hb => by
        rw [hdiff b hb a ha]
        show _ = - a.dateAdded.getD 0 - (- b.dateAdded.getD 0)
        omega)
    refine List.Pairwise.imp_of_mem ?_ hp
    intro a b ha hb hab
    have hneg : - a.dateAdded.getD 0 ≤ - b.dateAdded.getD 0 := hab
    exact hsome a ((sort_perm _ l).mem_iff.mp ha) b ((sort_perm _ l).mem_iff.mp hb)
      (fun x y => y ≤ x) (by omega)

/-- C12 (as the code has it): when every listing carries a timestamp, `sortBusinesses`
yields a permutation of the listings that is in descending order of timestamp for key
`newest` (most recent first) and in ascending order of timestamp for key `oldest`. -/
theorem sortedBusinesses_by_date (app : PearllinkApp) (dom : Dom)
    (hall : ∀ business ∈ app.businesses, business.dateAdded.isSome = true) :
    ((sortBusinesses.sortedBusinesses app { dom with sortSelect := some "newest" }).Perm
        app.businesses ∧
      (sortBusinesses.sortedBusinesses app { dom with sortSelect := some "newest" }).Pairwise
        (fun a b => ∃ x y, a.dateAdded = some x ∧ b.dateAdded = some y ∧ y ≤ x)) ∧
    ((sortBusinesses.sortedBusinesses app { dom with sortSelect := some "oldest" }).Perm
        app.businesses ∧
      (sortBusinesses.sortedBusinesses app { dom with sortSelect := some "oldest" }).Pairwise
        (fun a b => ∃ x y, a.dateAdded = some x ∧ b.dateAdded = some y ∧ x ≤ y)) := by
  refine ⟨⟨sortedBusinesses_perm _ _, ?_⟩, ⟨sortedBusinesses_perm _ _, ?_⟩⟩
  · have hkey : sortBusinesses.sortValue { dom with sortSelect := some "newest" } =
        "newest" := by
      simp [sortBusinesses.sortValue, falsy]
    have h1 : ¬ ("newest" = "price-low") := by decide
    have h2 : ¬ ("newest" = "price-high") := by decide
    simp only [sortBusinesses.sortedBusinesses, hkey, if_neg h1, if_neg h2, if_true,
      getCurrentDisplayedBusinesses]
    exact (sort_dateDifference_pairwise app.businesses hall).2
  · have hkey : sortBusinesses.sortValue { dom with sortSelect := some "oldest" } =
        "oldest" := by
      simp [sortBusinesses.sortValue, falsy]
    have h1 : ¬ ("oldest" = "price-low") := by decide
    have h2 : ¬ ("oldest" = "price-high") := by decide
    have h3 : ¬ ("oldest" = "newest") := by decide
    simp only [sortBusinesses.sortedBusinesses, hkey, if_neg h1, if_neg h2, if_neg h3, if_true,
      getCurrentDisplayedBusinesses]
    exact (sort_dateDifference_pairwise app.businesses hall).1

/-- C12, witness: two sample listings stamped 1 and 2. -/
theorem sortedBusinesses_by_date_witness :
    (∀ business ∈ (⟨[{ sampleBusinesses.get ⟨0, by decide⟩ with dateAdded := some 1 },
          { sampleBusinesses.get ⟨1, by decide⟩ with dateAdded := some 2 }], [], 1, 9⟩ : PearllinkApp).businesses, business.dateAdded.isSome = true) ∧
    (((sortBusinesses.sortedBusinesses ⟨[{ sampleBusinesses.get ⟨0, by decide⟩ with dateAdded := some 1 },
          { sampleBusinesses.get ⟨1, by decide⟩ with dateAdded := some 2 }], [], 1, 9⟩
          { (⟨none, none, none, none, none, none, none⟩ : Dom) with
            sortSelect := some "newest" }).Perm
        (⟨[{ sampleBusinesses.get ⟨0, by decide⟩ with dateAdded := some 1 },
          { sampleBusinesses.get ⟨1, by decide⟩ with dateAdded := some 2 }], [], 1, 9⟩ : PearllinkApp).businesses ∧
      (sortBusinesses.sortedBusinesses ⟨[{ sampleBusinesses.get ⟨0, by decide⟩ with dateAdded := some 1 },
          { sampleBusinesses.get ⟨1, by decide⟩ with dateAdded := some 2 }], [], 1, 9⟩
          { (⟨none, none, none, none, none, none, none⟩ : Dom) with
            sortSelect := some "newest" }).Pairwise
        (fun a b => ∃ x y, a.dateAdded = some x ∧ b.dateAdded = some y ∧ y ≤ x)) ∧
    ((sortBusinesses.sortedBusinesses ⟨[{ sampleBusinesses.get ⟨0, by decide⟩ with dateAdded := some 1 },
          { sampleBusinesses.get ⟨1, by decide⟩ with dateAdded := some 2 }], [], 1, 9⟩
          { (⟨none, none, none, none, none, none, none⟩ : Dom) with
            sortSelect := some "oldest" }).Perm
        (⟨[{ sampleBusinesses.get ⟨0, by decide⟩ with dateAdded := some 1 },
          { sampleBusinesses.get ⟨1, by decide⟩ with dateAdded := some 2 }], [], 1, 9⟩ : PearllinkApp).businesses ∧
      (sortBusinesses.sortedBusinesses ⟨[{ sampleBusinesses.get ⟨0, by decide⟩ with dateAdded := some 1 },
          { sampleBusinesses.get ⟨1, by decide⟩ with dateAdded := some 2 }], [], 1, 9⟩
          { (⟨none, none, none, none, none, none, none⟩ : Dom) with
            sortSelect := some "oldest" }).Pairwise
        (fun a b => ∃ x y, a.dateAdded = some x ∧ b.dateAdded = some y ∧ x ≤ y))) :=
  ⟨by decide,
    sortedBusinesses_by_date ⟨[{ sampleBusinesses.get ⟨0, by decide⟩ with dateAdded := some 1 },
          { sampleBusinesses.get ⟨1, by decide⟩ with dateAdded := some 2 }], [], 1, 9⟩ ⟨none, none, none, none, none, none, none⟩ (by decide)⟩

/-- C12, counterexample: for two listings stamped 1 and 2, in that order, key `newest`
yields the listing stamped 2 first, which is not ascending, and key `oldest` yields the
listing stamped 1 first, which is not descending. -/
theorem sortedBusinesses_newest_not_ascending :
    (∀ business ∈ (⟨[{ sampleBusinesses.get ⟨0, by decide⟩ with dateAdded := some 1 },
          { sampleBusinesses.get ⟨1, by decide⟩ with dateAdded := some 2 }], [], 1, 9⟩ : PearllinkApp).businesses, business.dateAdded.isSome = true) ∧
    ¬ (sortBusinesses.sortedBusinesses ⟨[{ sampleBusinesses.get ⟨0, by decide⟩ with dateAdded := some 1 },
          { sampleBusinesses.get ⟨1, by decide⟩ with dateAdded := some 2 }], [], 1, 9⟩
          ⟨none, none, none, none, some "newest", none, none⟩).Pairwise
        (fun a b => ∃ x y, a.dateAdded = some x ∧ b.dateAdded = some y ∧ x ≤ y) ∧
    ¬ (sortBusinesses.sortedBusinesses ⟨[{ sampleBusinesses.get ⟨0, by decide⟩ with dateAdded := some 1 },
          { sampleBusinesses.get ⟨1, by decide⟩ with dateAdded := some 2 }], [], 1, 9⟩
          ⟨none, none, none, none, some "oldest", none, none⟩).Pairwise
        (fun a b => ∃ x y, a.dateAdded = some x ∧ b.dateAdded = some y ∧ y ≤ x) := by
  refine ⟨by decide, ?_, ?_⟩
  · have hout : sortBusinesses.sortedBusinesses ⟨[{ sampleBusinesses.get ⟨0, by decide⟩ with dateAdded := some 1 },
          { sampleBusinesses.get ⟨1, by decide⟩ with dateAdded := some 2 }], [], 1, 9⟩
          ⟨none, none, none, none, some "newest", none, none⟩ =
        [{ sampleBusinesses.get ⟨1, by decide⟩ with dateAdded := some 2 },
          { sampleBusinesses.get ⟨0, by decide⟩ with dateAdded := some 1 }] := by
      decide
    rw [hout]
    intro h
    obtain ⟨x, y, hx, hy, hxy⟩ := (List.pairwise_cons.mp h).1 _ (List.mem_singleton_self _)
    have hx2 : (2 : Int) = x := Option.some.inj hx
    have hy1 : (1 : Int) = y := Option.some.inj hy
    omega
  · have hout : sortBusinesses.sortedBusinesses ⟨[{ sampleBusinesses.get ⟨0, by decide⟩ with dateAdded := some 1 },
          { sampleBusinesses.get ⟨1, by decide⟩ with dateAdded := some 2 }], [], 1, 9⟩
          ⟨none, none, none, none, some "oldest", none, none⟩ =
        [{ sampleBusinesses.get ⟨0, by decide⟩ with dateAdded := some 1 },
          { sampleBusinesses.get ⟨1, by decide⟩ with dateAdded := some 2 }] := by
      decide
    rw [hout]
    intro h
    obtain ⟨x, y, hx, hy, hxy⟩ := (List.pairwise_cons.mp h).1 _ (List.mem_singleton_self _)
    have hx1 : (1 : Int) = x := Option.some.inj hx
    have hy2 : (2 : Int) = y := Option.some.inj hy
    omega

/-! ## Scenarios on the sample dataset, the price bands and the two location tests -/

/-- C21: search is case-insensitive. Two search inputs with the same lowercase form make
`filterBusinesses` compute the same list, whatever the dataset and the other filters; on
the sample dataset both `coffee` and `COFFEE` keep the listing with id 2, titled
`Boutique Coffee Chain`. -/
theorem filteredBusinesses_case_insensitive :
    (∀ (app : PearllinkApp) (dom : Dom) (t1 t2 : String), toLowerCase t1 = toLowerCase t2 →
      filterBusinesses.filteredBusinesses app { dom with searchInput := some t1 } =
        filterBusinesses.filteredBusinesses app { dom with searchInput := some t2 }) ∧
    (sampleBusinesses.get ⟨1, by decide⟩).id = 2 ∧
    (sampleBusinesses.get ⟨1, by decide⟩).title = "Boutique Coffee Chain" ∧
    sampleBusinesses.get ⟨1, by decide⟩ ∈ filterBusinesses.filteredBusinesses ⟨sampleBusinesses, sampleBusinesses, 1, 9⟩
      ⟨some "coffee", some "", some "", some "", none, none, none⟩ ∧
    sampleBusinesses.get ⟨1, by decide⟩ ∈ filterBusinesses.filteredBusinesses ⟨sampleBusinesses, sampleBusinesses, 1, 9⟩
      ⟨some "COFFEE", some "", some "", some "", none, none, none⟩ := by
  refine ⟨?_, by decide, by decide, by decide, by decide⟩
  intro app dom t1 t2 h
  simp only [filterBusinesses.filteredBusinesses, filterBusinesses.searchTerm,
    filterBusinesses.industry, filterBusinesses.priceRange, filterBusinesses.location,
    Option.map_some', Option.getD_some, h]

/-- C21, witness: `coffee` and `COFFEE` have the same lowercase form and give the same list
on the sample dataset. -/
theorem filteredBusinesses_case_insensitive_witness :
    toLowerCase "coffee" = toLowerCase "COFFEE" ∧
    filterBusinesses.filteredBusinesses ⟨sampleBusinesses, sampleBusinesses, 1, 9⟩
        { (⟨none, some "", some "", some "", none, none, none⟩ : Dom) with
          searchInput := some "coffee" } =
      filterBusinesses.filteredBusinesses ⟨sampleBusinesses, sampleBusinesses, 1, 9⟩
        { (⟨none, some "", some "", some "", none, none, none⟩ : Dom) with
          searchInput := some "COFFEE" } :=
  ⟨by decide,
    filteredBusinesses_case_insensitive.1 ⟨sampleBusinesses, sampleBusinesses, 1, 9⟩
      ⟨none, some "", some "", some "", none, none, none⟩ "coffee" "COFFEE" (by decide)⟩

/-- C22: on the sample dataset, `sortBusinesses` with the default key (no selection, or
`featured`) yields the listings in id order 1, 2, 4, 6, 9, 3, 5, 7, 8: the featured
listings in their original order, then the others in their original order. -/
theorem sortedBusinesses_sample_featured :
    (sortBusinesses.sortedBusinesses ⟨sampleBusinesses, sampleBusinesses, 1, 9⟩
        ⟨none, none, none, none, none, none, none⟩).map (fun business => business.id) =
      [1, 2, 4, 6, 9, 3, 5, 7, 8] ∧
    (sortBusinesses.sortedBusinesses ⟨sampleBusinesses, sampleBusinesses, 1, 9⟩
        ⟨none, none, none, none, some "featured", none, none⟩).map (fun business => business.id) =
      [1, 2, 4, 6, 9, 3, 5, 7, 8] ∧
    (sampleBusinesses.filter (fun business => business.featured)).map
        (fun business => business.id) = [1, 2, 4, 6, 9] ∧
    (sampleBusinesses.filter (fun business => !business.featured)).map
        (fun business => business.id) = [3, 5, 7, 8] := by
  refine ⟨by decide, by decide, by decide, by decide⟩

/-- C23: the four price bands partition the prices. For every price at least one of the
selectors `0-100000`, `100000-500000`, `500000-1000000`, `1000000+` accepts it and no two
of them do, in the inline chain of `filterBusinesses` and in `matchesPriceRange` alike. -/
theorem price_bands_partition (business : Business) :
    ((filterBusinesses.matchesPrice "0-100000" business = true ∨
        filterBusinesses.matchesPrice "100000-500000" business = true ∨
        filterBusinesses.matchesPrice "500000-1000000" business = true ∨
        filterBusinesses.matchesPrice "1000000+" business = true) ∧
      ¬ (filterBusinesses.matchesPrice "0-100000" business = true ∧
        filterBusinesses.matchesPrice "100000-500000" business = true) ∧
      ¬ (filterBusinesses.matchesPrice "0-100000" business = true ∧
        filterBusinesses.matchesPrice "500000-1000000" business = true) ∧
      ¬ (filterBusinesses.matchesPrice "0-100000" business = true ∧
        filterBusinesses.matchesPrice "1000000+" business = true) ∧
      ¬ (filterBusinesses.matchesPrice "100000-500000" business = true ∧
        filterBusinesses.matchesPrice "500000-1000000" business = true) ∧
      ¬ (filterBusinesses.matchesPrice "100000-500000" business = true ∧
        filterBusinesses.matchesPrice "1000000+" business = true) ∧
      ¬ (filterBusinesses.matchesPrice "500000-1000000" business = true ∧
        filterBusinesses.matchesPrice "1000000+" business = true)) ∧
    ((matchesPriceRange business.price "0-100000" = true ∨
        matchesPriceRange business.price "100000-500000" = true ∨
        matchesPriceRange business.price "500000-1000000" = true ∨
        matchesPriceRange business.price "1000000+" = true) ∧
      ¬ (matchesPriceRange business.price "0-100000" = true ∧
        matchesPriceRange business.price "100000-500000" = true) ∧
      ¬ (matchesPriceRange business.price "0-100000" = true ∧
        matchesPriceRange business.price "500000-1000000" = true) ∧
      ¬ (matchesPriceRange business.price "0-100000" = true ∧
        matchesPriceRange business.price "1000000+" = true) ∧
      ¬ (matchesPriceRange business.price "100000-500000" = true ∧
        matchesPriceRange business.price "500000-1000000" = true) ∧
      ¬ (matchesPriceRange business.price "100000-500000" = true ∧
        matchesPriceRange business.price "1000000+" = true) ∧
      ¬ (matchesPriceRange business.price "500000-1000000" = true ∧
        matchesPriceRange business.price "1000000+" = true)) := by
  have h1 : (filterBusinesses.matchesPrice "0-100000" business = true ↔
      business.price < 100000) := by
    simp [filterBusinesses.matchesPrice, falsy]
  have h2 : (filterBusinesses.matchesPrice "100000-500000" business = true ↔
      100000 ≤ business.price ∧ business.price ≤ 500000) := by
    simp [filterBusinesses.matchesPrice, falsy]
  have h3 : (filterBusinesses.matchesPrice "500000-1000000" business = true ↔
      500000 < business.price ∧ business.price ≤ 1000000) := by
    simp [filterBusinesses.matchesPrice, falsy]
  have h4 : (filterBusinesses.matchesPrice "1000000+" business = true ↔
      1000000 < business.price) := by
    simp [filterBusinesses.matchesPrice, falsy]
  have g1 : (matchesPriceRange business.price "0-100000" = true ↔
      business.price < 100000) := by
    simp [matchesPriceRange]
  have g2 : (matchesPriceRange business.price "100000-500000" = true ↔
      100000 ≤ business.price ∧ business.price ≤ 500000) := by
    simp [matchesPriceRange]
  have g3 : (matchesPriceRange business.price "500000-1000000" = true ↔
      500000 < business.price ∧ business.price ≤ 1000000) := by
    simp [matchesPriceRange]
  have g4 : (matchesPriceRange business.price "1000000+" = true ↔
      1000000 < business.price) := by
    simp [matchesPriceRange]
  rw [h1, h2, h3, h4, g1, g2, g3, g4]
  omega

/-- C28: the two implementations of the price test agree on every price and every selector
string: `matchesPriceRange` behind the empty-selector guard of the earlier
`filterBusinesses` gives the answer of the inline chain of the later one. -/
theorem matchesPrice_implementations_agree (priceFilter : String) (business : Business) :
    filterBusinessesShadowed.matchesPrice priceFilter business =
      filterBusinesses.matchesPrice priceFilter business := by
  unfold filterBusinessesShadowed.matchesPrice filterBusinesses.matchesPrice matchesPriceRange
  cases hf : falsy priceFilter <;> simp

/-- C26: the two location policies disagree. For the location `San Francisco, CA` of the
first sample listing and the filter `us`, the equality test of `filterBusinesses` rejects
the listing while `matchesLocation` accepts it. -/
theorem location_policies_disagree :
    (sampleBusinesses.get ⟨0, by decide⟩).location = "San Francisco, CA" ∧
    filterBusinesses.matchesLocation "us" (sampleBusinesses.get ⟨0, by decide⟩) = false ∧
    matchesLocation "San Francisco, CA" "us" = .ok true ∧
    ∃ (location filter : String) (business : Business), filter ≠ "" ∧
      business.location = location ∧
      matchesLocation location filter ≠
        .ok (filterBusinesses.matchesLocation filter business) := by
  have hregion : matchesLocation "San Francisco, CA" "us" = .ok true := rfl
  have hequal :
      filterBusinesses.matchesLocation "us" (sampleBusinesses.get ⟨0, by decide⟩) = false := by
    decide
  refine ⟨by decide, hequal, hregion,
    "San Francisco, CA", "us", sampleBusinesses.get ⟨0, by decide⟩, by decide, by decide, ?_⟩
  rw [hregion, hequal]
  intro h
  exact absurd (Except.ok.inj h) (by decide)

/-! ## Reachable states -/

theorem loadSampleBusinesses_app (app : PearllinkApp) (dom : Dom) :
    (loadSampleBusinesses app dom).app =
      { app with businesses := sampleBusinesses, filteredBusinesses := sampleBusinesses } := by
  unfold loadSampleBusinesses
  dsimp only
  split <;> rfl

theorem call_page (c : Call) (app : PearllinkApp) (dom : Dom) :
    app.currentPage ≤ (call c app dom).app.currentPage ∧
    (call c app dom).app.businessesPerPage = app.businessesPerPage := by
  cases c
  · rw [call, filterBusinesses_app]
    exact ⟨le_refl _, rfl⟩
  · rw [call, sortBusinesses_app]
    exact ⟨le_refl _, rfl⟩
  · rw [call, loadMoreBusinesses_app]
    exact ⟨by show app.currentPage ≤ app.currentPage + 1; omega, rfl⟩

theorem run_page : ∀ (calls : List (Call × Dom)) (app : PearllinkApp),
    app.currentPage ≤ (run calls app).currentPage ∧
    (run calls app).businessesPerPage = app.businessesPerPage
  | [], app => ⟨le_refl _, rfl⟩
  | (c, dom) :: rest, app => by
    have hstep := call_page c app dom
    have hrest := run_page rest (call c app dom).app
    simp only [run]
    exact ⟨le_trans hstep.1 hrest.1, hrest.2.trans hstep.2⟩

/-- C24: in every state reached from the constructor by a sequence of `filterBusinesses`,
`sortBusinesses` and `loadMoreBusinesses` calls, `currentPage` is an integer at least 1 and
`businessesPerPage` is 9. -/
theorem reachable_page_invariant (dom0 : Dom) (calls : List (Call × Dom)) :
    1 ≤ (run calls (constructor dom0).app).currentPage ∧
    (run calls (constructor dom0).app).businessesPerPage = 9 := by
  have hstart : (constructor dom0).app.currentPage = 1 ∧
      (constructor dom0).app.businessesPerPage = 9 := by
    rw [constructor, init, loadSampleBusinesses_app]
    exact ⟨rfl, rfl⟩
  have hrun := run_page calls (constructor dom0).app
  exact ⟨by omega, hrun.2.trans hstart.2⟩

/-! ## Listings without a timestamp -/

theorem sort_eq_self_of_all_equal {α : Type} (compareFn : α → α → Option Int) (l : List α)
    (h : ∀ a ∈ l, ∀ b ∈ l, (compareFn a b).getD 0 = 0) : sort compareFn l = l := by
  rw [sort_of_consistent _ _
    (consistentOn_of_key compareFn (fun _ => 0) l (fun a ha b hb => by rw [h a ha b hb]; rfl))]
  apply List.Sorted.insertionSort_eq
  have htrue : l.Pairwise (fun _ _ => True) := List.pairwise_of_forall (fun _ _ => trivial)
  exact List.Pairwise.imp_of_mem (fun {a b} ha hb _ => le_of_eq (h a ha b hb)) htrue

theorem sortedBusinesses_without_dates (app : PearllinkApp) (dom : Dom)
    (hnone : ∀ business ∈ app.businesses, business.dateAdded = none)
    (hkey : sortBusinesses.sortValue dom = "newest" ∨ sortBusinesses.sortValue dom = "oldest") :
    sortBusinesses.sortedBusinesses app dom = app.businesses := by
  have hnan : ∀ a ∈ app.businesses, ∀ b ∈ app.businesses,
      (sortBusinesses.dateDifference a b).getD 0 = 0 := by
    intro a ha b _
    simp [sortBusinesses.dateDifference, hnone a ha]
  unfold sortBusinesses.sortedBusinesses getCurrentDisplayedBusinesses
  dsimp only
  rcases hkey with hk | hk
  · rw [hk, if_neg (by decide), if_neg (by decide), if_pos rfl]
    exact sort_eq_self_of_all_equal _ _ (fun a ha b hb => hnan b hb a ha)
  · rw [hk, if_neg (by decide), if_neg (by decide), if_neg (by decide), if_pos rfl]
    exact sort_eq_self_of_all_equal _ _ hnan

/-- C25, at the failing input: on the sample dataset, whose listings carry no timestamp,
the keys `newest` and `oldest` leave the order unchanged, but `sortBusinesses` does fail:
the call ends with the `TypeError` of the `displayBusinesses` call. -/
theorem sortBusinesses_without_dates_throws :
    (∀ business ∈ sampleBusinesses, business.dateAdded = none) ∧
    sortBusinesses.sortedBusinesses ⟨sampleBusinesses, sampleBusinesses, 1, 9⟩
        ⟨none, none, none, none, some "newest", none, none⟩ = sampleBusinesses ∧
    sortBusinesses.sortedBusinesses ⟨sampleBusinesses, sampleBusinesses, 1, 9⟩
        ⟨none, none, none, none, some "oldest", none, none⟩ = sampleBusinesses ∧
    (sortBusinesses ⟨sampleBusinesses, sampleBusinesses, 1, 9⟩ ⟨none, none, none, none, some "newest", none, none⟩).thrown =
      some (JsError.typeError "this.displayBusinesses is not a function") ∧
    (sortBusinesses ⟨sampleBusinesses, sampleBusinesses, 1, 9⟩ ⟨none, none, none, none, some "oldest", none, none⟩).thrown =
      some (JsError.typeError "this.displayBusinesses is not a function") :=
  ⟨by decide,
    sortedBusinesses_without_dates ⟨sampleBusinesses, sampleBusinesses, 1, 9⟩ _ (by decide) (Or.inl (by decide)),
    sortedBusinesses_without_dates ⟨sampleBusinesses, sampleBusinesses, 1, 9⟩ _ (by decide) (Or.inr (by decide)),
    rfl, rfl⟩

/-! ## Form validation -/

/-- C27: for a field of type `password` whose id is not `signupConfirmPassword` and whose
trimmed value is not empty, `validateField` returns true exactly when the trimmed value has
a `length` of at least 8, and when it returns false the error shown is
`Password must be at least 8 characters long`. -/
theorem validateField_password (field : Field) (passwordField : Option Field)
    (htype : field.type = "password") (hid : field.id ≠ "signupConfirmPassword")
    (hvalue : trim field.value ≠ "") :
    ((validateField field passwordField).isValid = true ↔ 8 ≤ length (trim field.value)) ∧
    ((validateField field passwordField).isValid = false →
      (validateField field passwordField).errorShown =
        some "Password must be at least 8 characters long") := by
  have hf : falsy (trim field.value) = false := by
    simp [falsy, hvalue]
  have hemail : ¬ ("password" = "email") := by decide
  by_cases hlen : length (trim field.value) < 8
  · have hres : validateField field passwordField =
        ⟨false, some "Password must be at least 8 characters long"⟩ := by
      simp [validateField, htype, hid, hf, hlen]
    rw [hres]
    exact ⟨⟨fun h => by simp at h, fun h => by omega⟩, fun _ => rfl⟩
  · have hres : validateField field passwordField = ⟨true, none⟩ := by
      simp [validateField, htype, hid, hf, hlen]
    rw [hres]
    exact ⟨⟨fun _ => by omega, fun _ => rfl⟩, fun h => by simp at h⟩

/-- C27, witness: a login password of five characters is rejected with the length message. -/
theorem validateField_password_witness :
    ("password" : String) = "password" ∧ ("loginPassword" : String) ≠ "signupConfirmPassword" ∧
    trim " hello " ≠ "" ∧
    ((validateField ⟨"loginPassword", "password", " hello ", true, false⟩ none).isValid = true ↔
      8 ≤ length (trim " hello ")) ∧
    ((validateField ⟨"loginPassword", "password", " hello ", true, false⟩ none).isValid = false →
      (validateField ⟨"loginPassword", "password", " hello ", true, false⟩ none).errorShown =
        some "Password must be at least 8 characters long") :=
  ⟨rfl, by decide, by decide,
    validateField_password ⟨"loginPassword", "password", " hello ", true, false⟩ none rfl
      (by decide) (by decide)⟩

theorem validateField_confirm_of_trimmed (p : String) (required submitting : Bool)
    (htrim : trim p = p) (hlen : 8 ≤ length (trim p)) :
    validateField ⟨"signupConfirmPassword", "password", p, required, submitting⟩
        (some ⟨"signupPassword", "password", p, required, submitting⟩) = ⟨true, none⟩ := by
  have hne : trim p ≠ "" := by
    intro h
    rw [h] at hlen
    exact absurd hlen (by decide)
  have hf : falsy (trim p) = false := by
    simp [falsy, hne]
  have hlen2 : ¬ length (trim p) < 8 := by omega
  rw [htrim] at hf hlen2
  simp [validateField, hf, hlen2, htrim]

/-- C30, at the failing input: both fields hold `password1 ` (nine characters and a trailing
space, trimmed length 9). `validateField` on the confirm field trims its own value and
compares it with the untrimmed value of `signupPassword`, so it returns false and reports
`Passwords do not match`. -/
theorem validateField_confirm_trailing_space :
    8 ≤ length (trim "password1 ") ∧
    validateField ⟨"signupConfirmPassword", "password", "password1 ", true, false⟩
        (some ⟨"signupPassword", "password", "password1 ", true, false⟩) =
      ⟨false, some "Passwords do not match"⟩ := by
  constructor <;> decide

/-! ## Pages tile the list -/

theorem businessesToShow_length_le (D L : List Business) (p : Int) :
    (renderBusinesses.businessesToShow ⟨D, L, p, 9⟩).length ≤ 9 := by
  simp only [renderBusinesses.businessesToShow, renderBusinesses.startIndex,
    renderBusinesses.endIndex, slice, List.length_take, List.length_drop]
  split_ifs <;> omega

theorem pages_flatten (D L : List Business) : ∀ k : Nat,
    ((List.range k).map
        (fun (i : Nat) => renderBusinesses.businessesToShow ⟨D, L, (i : Int) + 1, 9⟩)).flatten =
      L.take (9 * k)
  | 0 => by simp
  | k + 1 => by
    have ih := pages_flatten D L k
    have hpage : renderBusinesses.businessesToShow ⟨D, L, (k : Int) + 1, 9⟩ =
        (L.drop (9 * k)).take 9 := by
      rw [businessesToShow_eq_take_drop D L ((k : Int) + 1) (by omega)]
      have : (((k : Int) + 1 - 1) * 9).toNat = 9 * k := by omega
      rw [this]
    rw [List.range_succ, List.map_append, List.flatten_append, ih, List.map_singleton,
      List.flatten_singleton, hpage, show 9 * (k + 1) = 9 * k + 9 by ring, List.take_add]

/-- C29: pages tile the list. With page size 9, the pages that `renderBusinesses` computes
for page numbers 1 to `k`, concatenated, are the first `min(9*k, length)` elements of the
list; every page has at most 9 elements; and when the has-more flag of a page `p >= 1` is
true, that page has exactly 9 elements and page `p + 1` is not empty. -/
theorem pages_tile (D L : List Business) :
    (∀ k : Nat,
      ((List.range k).map
          (fun (i : Nat) => renderBusinesses.businessesToShow ⟨D, L, (i : Int) + 1, 9⟩)).flatten =
        L.take (min (9 * k) L.length)) ∧
    (∀ p : Int, (renderBusinesses.businessesToShow ⟨D, L, p, 9⟩).length ≤ 9) ∧
    (∀ p : Int, 1 ≤ p → renderBusinesses.hasMore ⟨D, L, p, 9⟩ = true →
      (renderBusinesses.businessesToShow ⟨D, L, p, 9⟩).length = 9 ∧
      renderBusinesses.businessesToShow ⟨D, L, p + 1, 9⟩ ≠ []) := by
  refine ⟨?_, businessesToShow_length_le D L, ?_⟩
  · intro k
    rw [pages_flatten D L k]
    by_cases h : 9 * k ≤ L.length
    · rw [min_eq_left h]
    · rw [min_eq_right (by omega), List.take_of_length_le (by omega), List.take_length]
  · intro p hp hmore
    rw [hasMore_iff] at hmore
    constructor
    · rw [businessesToShow_eq_take_drop D L p hp, List.length_take, List.length_drop]
      omega
    · intro hempty
      have hlen := congrArg List.length hempty
      rw [businessesToShow_eq_take_drop D L (p + 1) (by omega), List.length_take,
        List.length_drop] at hlen
      simp only [List.length_nil] at hlen
      omega

/-- C29, witness: ten listings; page 1 has more, holds 9 listings, and page 2 is not
empty. -/
theorem pages_tile_witness :
    (1 : Int) ≤ 1 ∧ renderBusinesses.hasMore ⟨[], (sampleBusinesses ++ sampleBusinesses.take 1), 1, 9⟩ = true ∧
    (renderBusinesses.businessesToShow ⟨[], (sampleBusinesses ++ sampleBusinesses.take 1), 1, 9⟩).length = 9 ∧
    renderBusinesses.businessesToShow ⟨[], (sampleBusinesses ++ sampleBusinesses.take 1), 1 + 1, 9⟩ ≠ [] :=
  ⟨by decide, by decide, (pages_tile [] (sampleBusinesses ++ sampleBusinesses.take 1)).2.2 1 (by decide) (by decide)⟩

end Pearllink
